import Mathlib

/-!
Shallow embedding of the xod2-libraries-index pipeline scripts:
`tools/sync-xodio.js` (catalog synchronization) and the mirror script
(`tools/mirror-xodio.js` per the README; present as an unnamed source file).

JSON values are modelled by the inductive `Json`; JavaScript objects are
association lists of string keys (JSON.parse yields unique keys; first-match
lookup).  JavaScript numbers are modelled as integers (no field relevant to
the verified claims carries a fractional value).  `undefined` does not occur
in parsed JSON; absence of a key is modelled by `Option` at each lookup site.
-/

set_option autoImplicit false

namespace Xod

/-- JSON values (the data the two scripts manipulate). -/
inductive Json where
  | null
  | bool (b : Bool)
  | num (n : Int)
  | str (s : String)
  | arr (elems : List Json)
  | obj (fields : List (String × Json))

/-- First-match lookup in a string-keyed association list (JS property
access; also used for the mirror's keyed artifact state). -/
def lookupJ {β : Type} (fields : List (String × β)) (k : String) : Option β :=
  match fields with
  | [] => none
  | (k', v) :: rest => if k' = k then some v else lookupJ rest k

/-- JS property assignment `out[k] = v`: overwrite in place if the key is
present (keeping its position), append otherwise. -/
def setKey {β : Type} (fields : List (String × β)) (k : String) (v : β) :
    List (String × β) :=
  match fields with
  | [] => [(k, v)]
  | (k', v') :: rest =>
    if k' = k then (k', v) :: rest else (k', v') :: setKey rest k v

/-- Property access on an arbitrary value: only objects have (named) fields. -/
def getField (j : Json) (k : String) : Option Json :=
  match j with
  | .obj fields => lookupJ fields k
  | _ => none

/-- JS truthiness of a JSON value ({}, [] are truthy; "" , 0, null, false are
falsy). -/
def truthy : Json → Bool
  | .null => false
  | .bool b => b
  | .num n => n != 0
  | .str s => s != ""
  | .arr _ => true
  | .obj _ => true

/-- `value && typeof value === "object" && !Array.isArray(value)` for a JSON
value: a (necessarily truthy) non-array object. -/
def isPlainObj : Json → Bool
  | .obj _ => true
  | _ => false

/-- JS `===` restricted to values reachable from `JSON.parse`: primitives
compare by value; two distinct parsed composites are never the same
reference, so object/array comparisons are `false`. -/
def jsStrictEq : Json → Json → Bool
  | .null, .null => true
  | .bool a, .bool b => a == b
  | .num a, .num b => a == b
  | .str a, .str b => a == b
  | _, _ => false

/-- The whitespace class used by JS `String.prototype.trim` (ASCII part). -/
def isJsSpace (c : Char) : Bool :=
  c = ' ' || c = '\t' || c = '\n' || c = '\r' ||
  c = Char.ofNat 11 || c = Char.ofNat 12

/-- Remove trailing characters satisfying `p` (recursive formulation of the
trailing half of `trim`). -/
def dropTrail (p : Char → Bool) : List Char → List Char
  | [] => []
  | a :: t =>
    match dropTrail p t with
    | [] => if p a then [] else [a]
    | b :: u => a :: b :: u

/-- Model of JS `value.trim()`: drop leading and trailing whitespace. -/
def jsTrim (s : String) : String :=
  ⟨dropTrail isJsSpace (s.data.dropWhile isJsSpace)⟩

/-- Model of JS `c.toLowerCase()` on one character (ASCII case mapping; the
identifiers this program lowercases are ASCII). -/
def jsCharToLower (c : Char) : Char :=
  if 'A' ≤ c ∧ c ≤ 'Z' then Char.ofNat (c.toNat + 32) else c

/-- Model of JS `value.toLowerCase()`. -/
def jsToLowerCase (s : String) : String :=
  ⟨s.data.map jsCharToLower⟩

/-- Model of JS `value.startsWith("v")`. -/
def startsWithV (s : String) : Bool :=
  match s.data with
  | c :: _ => c = 'v'
  | [] => false

mutual

/-- JS string coercion `String(v)` / template interpolation of a JSON value. -/
def jsToString : Json → String
  | .null => "null"
  | .bool true => "true"
  | .bool false => "false"
  | .num n => toString n
  | .str s => s
  | .arr elems => String.intercalate "," (jsToStringElems elems)
  | .obj _ => "[object Object]"

/-- Array elements under JS array-to-string coercion (`null` renders empty). -/
def jsToStringElems : List Json → List String
  | [] => []
  | .null :: rest => "" :: jsToStringElems rest
  | e :: rest => jsToString e :: jsToStringElems rest

end

/-- The scan behind JS `s.split(sep)` for a one-character separator:
`acc` holds the current segment reversed. -/
def splitCharAux (sep : Char) : List Char → List Char → List String
  | [], acc => [⟨acc.reverse⟩]
  | c :: rest, acc =>
    if c = sep then (⟨acc.reverse⟩ : String) :: splitCharAux sep rest []
    else splitCharAux sep rest (c :: acc)

/-- Model of JS `s.split(sep)` for the one-character separators this
program uses (`-`, `.`, `/`, space): always at least one segment. -/
def jsSplitChar (sep : Char) (s : String) : List String :=
  splitCharAux sep s.data []

/-- Model of JS `Number.parseInt(s, 10)`: `none` is `NaN`.  Skips leading
whitespace, takes an optional sign and the longest run of decimal digits. -/
def jsParseInt (s : String) : Option Int :=
  let cs := s.data.dropWhile isJsSpace
  let (neg, rest) :=
    match cs with
    | '-' :: t => (true, t)
    | '+' :: t => (false, t)
    | t => (false, t)
  let digits := rest.takeWhile Char.isDigit
  if digits.isEmpty then none
  else
    let n : Nat := digits.foldl (fun acc c => acc * 10 + (c.toNat - 48)) 0
    some (if neg then -(n : Int) else (n : Int))

/-- The traversal behind `[...new Set(list)]`: `seen` holds the elements
already emitted. -/
def dedupFirstAux (seen : List String) : List String → List String
  | [] => []
  | x :: rest =>
    if seen.contains x then dedupFirstAux seen rest
    else x :: dedupFirstAux (x :: seen) rest

/-- `[...new Set(list)]`: keep the first occurrence of each element. -/
def dedupFirst (l : List String) : List String := dedupFirstAux [] l

/-- `uniqStrings(values)` (both scripts): keep the strings whose trim is
nonempty, trim them, and deduplicate keeping first occurrences. -/
def uniqStrings (values : List Json) : List String :=
  dedupFirst (values.filterMap fun x =>
    match x with
    | .str s => if jsTrim s = "" then none else some (jsTrim s)
    | _ => none)

/-- Model of JS `a.localeCompare(b)`: code-point lexicographic comparison
(the strings compared by this program are ASCII identifiers and version
strings, for which the default collation agrees on sign). -/
def localeCompare (a b : String) : Int :=
  if a < b then -1 else if b < a then 1 else 0

/-- Model of JS `Array.prototype.sort(comparator)`: a stable sort placing
`a` before `b` whenever `comparator a b ≤ 0`. -/
def sortByCmp {α : Type} (c : α → α → Int) (l : List α) : List α :=
  l.insertionSort (fun a b => c a b ≤ 0)

/-- `toNonEmptyString(value)`: the trimmed value when it is a string with
nonempty trim, else `null`. -/
def toNonEmptyString (value : Json) : Option String :=
  match value with
  | .str s => if jsTrim s = "" then none else some (jsTrim s)
  | _ => none

/-- `toBoolOrNull(value)` (sync script): genuine booleans only. -/
def toBoolOrNull (value : Json) : Option Bool :=
  match value with
  | .bool b => some b
  | _ => none

/-- Characters allowed in an identifier segment by
`/^[a-z0-9._-]+\/[a-z0-9._-]+$/i`. -/
def isIdChar (c : Char) : Bool :=
  c.isAlpha || c.isDigit || c = '.' || c = '_' || c = '-'

/-- The regex test of `normalizeId`: one nonempty run of identifier
characters, a slash, another nonempty run. -/
def isValidIdList (cs : List Char) : Bool :=
  match cs.span (fun c => c ≠ '/') with
  | (seg1, '/' :: seg2) =>
    !seg1.isEmpty && seg1.all isIdChar && !seg2.isEmpty && seg2.all isIdChar
  | _ => false

/-- `normalizeId(value)` (both scripts): trim, strip leading/trailing
slashes, require `owner/name` over `[a-z0-9._-]` case-insensitively, and
lowercase the result. -/
def normalizeId (value : Json) : Option String :=
  match value with
  | .str s =>
    let cleaned :=
      dropTrail (fun c => c = '/') ((jsTrim s).data.dropWhile (fun c => c = '/'))
    if isValidIdList cleaned then some (jsToLowerCase ⟨cleaned⟩) else none
  | _ => none

/-- The `parse` helper inside `semverCompareDesc`: split off the prerelease
suffix at the first `-`, parse the dot-separated numeric core (`parseInt`,
`NaN` coerced to 0), pad to three components. -/
def semverParse (v : Json) : List Int × String :=
  let s := jsToString v
  let segs := jsSplitChar '-' s
  let core := segs.headD ""
  let pre := (segs[1]?).getD ""
  let parts := (jsSplitChar '.' core).map (fun n => (jsParseInt n).getD 0)
  let parts := parts ++ List.replicate (3 - parts.length) 0
  (parts, pre)

/-- `semverCompareDesc(a, b)` (both scripts): descending on the numeric
core; at equal core, no-suffix before suffix; two suffixes compare by
`localeCompare`. -/
def semverCompareDesc (a b : Json) : Int :=
  let pa := semverParse a
  let pb := semverParse b
  if pa.1.getD 0 0 ≠ pb.1.getD 0 0 then pb.1.getD 0 0 - pa.1.getD 0 0
  else if pa.1.getD 1 0 ≠ pb.1.getD 1 0 then pb.1.getD 1 0 - pa.1.getD 1 0
  else if pa.1.getD 2 0 ≠ pb.1.getD 2 0 then pb.1.getD 2 0 - pa.1.getD 2 0
  else if pa.2 = "" ∧ pb.2 ≠ "" then -1
  else if pa.2 ≠ "" ∧ pb.2 = "" then 1
  else localeCompare pa.2 pb.2

/-- Fields observed by spreading an array (`{...arr}` yields index keys). -/
def indexedFields (i : Nat) : List Json → List (String × Json)
  | [] => []
  | e :: rest => (toString i, e) :: indexedFields (i + 1) rest

/-- Fields observed by spreading a string (index keys to one-char strings). -/
def charFields (i : Nat) : List Char → List (String × Json)
  | [] => []
  | c :: rest => (toString i, .str (String.singleton c)) :: charFields (i + 1) rest

/-- `{...(base || {})}` in `deepMerge`: the own enumerable fields of the
spread value (objects keep their fields, arrays and strings spread to
index keys, every other value spreads to nothing). -/
def spreadFields : Json → List (String × Json)
  | .obj fs => fs
  | .arr es => indexedFields 0 es
  | .str s => charFields 0 s.data
  | _ => []

/-- Plain sequential assignments `out[k] = v` (no merge check needed:
used where the assigned values can never be plain objects). -/
def assignAll (out : List (String × Json)) : List (String × Json) →
    List (String × Json)
  | [] => out
  | (k, v) :: rest => assignAll (setKey out k v) rest

mutual

/-- `deepMerge(base, overlay)` (sync script): start from the spread of
`base`; for each key of `overlay`, recurse when both current and overlay
values are truthy non-array objects, otherwise assign the overlay value. -/
def deepMerge (base overlay : Json) : Json :=
  match overlay with
  | .obj fs => .obj (mergeFields (spreadFields base) fs)
  | .arr es => .obj (mergeArrFields (spreadFields base) 0 es)
  | .str s => .obj (assignAll (spreadFields base) (charFields 0 s.data))
  | _ => .obj (spreadFields base)

/-- The key loop of `deepMerge` over an object overlay's fields. -/
def mergeFields (out : List (String × Json)) :
    List (String × Json) → List (String × Json)
  | [] => out
  | (k, ov) :: rest =>
    let newVal :=
      match lookupJ out k with
      | some bv => if isPlainObj bv && isPlainObj ov then deepMerge bv ov else ov
      | none => ov
    mergeFields (setKey out k newVal) rest

/-- The key loop of `deepMerge` over an array overlay (index keys). -/
def mergeArrFields (out : List (String × Json)) (i : Nat) :
    List Json → List (String × Json)
  | [] => out
  | ov :: rest =>
    let k := toString i
    let newVal :=
      match lookupJ out k with
      | some bv => if isPlainObj bv && isPlainObj ov then deepMerge bv ov else ov
      | none => ov
    mergeArrFields (setKey out k newVal) (i + 1) rest

end

/-- The retry-exhaustion error message (both scripts use this shape). -/
def exhaustMsg (url : String) (attempts : Nat) (lastErr : String) : String :=
  "Failed to fetch " ++ url ++ " after " ++ toString attempts ++
    " attempts: " ++ lastErr

namespace Sync

def XOD_LIBS_BASE_URL : String := "https://xod.io/libs/"

/-- `RETRYABLE_STATUS_CODES` of `tools/sync-xodio.js` (note: no 408). -/
def RETRYABLE_STATUS_CODES : List Nat := [429, 500, 502, 503, 504]

def MAX_FETCH_RETRIES : Nat := 4

def isRetryableStatus (s : Nat) : Bool := RETRYABLE_STATUS_CODES.contains s

def COMPATIBILITY_STATUSES : List String := ["working", "broken", "untested"]

def SUPPORT_STATUSES : List String := ["stable", "experimental", "deprecated"]

/-- `normalizeVersions(versions, latest)`: trim/dedup the string entries,
prepend a truthy `latest` that is not already present, sort by
`semverCompareDesc`, and fall back to `[latest || "latest"]` when empty. -/
def normalizeVersions (versions : Json) (latest : Json) : List Json :=
  let entries : List Json :=
    match versions with
    | .arr es => es
    | _ => []
  let normalized : List Json :=
    (uniqStrings (entries.filterMap fun x =>
      (toNonEmptyString x).map Json.str)).map Json.str
  let normalized :=
    if truthy latest && !(normalized.any fun v => jsStrictEq v latest) then
      latest :: normalized
    else normalized
  let sorted := sortByCmp semverCompareDesc normalized
  if sorted.isEmpty then [if truthy latest then latest else .str "latest"]
  else sorted

/-- `normalizeStringList(value)`: wrap a lone string, trim/dedup, sort by
`localeCompare`. -/
def normalizeStringList (value : Json) : List String :=
  let list : List Json :=
    match value with
    | .arr es => es
    | .str s => [.str s]
    | _ => []
  sortByCmp localeCompare
    (uniqStrings (list.filterMap fun x => (toNonEmptyString x).map Json.str))

/-- `normalizeCompatibilityStatus(status)` (argument may be absent). -/
def normalizeCompatibilityStatus (status : Option Json) : Option String :=
  match status with
  | some (.str s) => if COMPATIBILITY_STATUSES.contains s then some s else none
  | _ => none

/-- `normalizeSupportStatus(value)`. -/
def normalizeSupportStatus (value : Json) : Option String :=
  match toNonEmptyString value with
  | some s => if SUPPORT_STATUSES.contains s then some s else none
  | none => none

/-- `sortObjectKeys(value)`: rebuild an object with keys sorted by
`localeCompare`. -/
def sortObjectKeys (fields : List (String × Json)) : List (String × Json) :=
  sortByCmp (fun a b => localeCompare a.1 b.1) fields

/-- `normalizeBoardCompatibility(rawValue)`: keep entries with a nonempty
board id and a recognized status, attach trimmed notes when present, and
key-sort the result. -/
def normalizeBoardCompatibility (rawValue : Json) : Json :=
  let input : List (String × Json) :=
    match rawValue with
    | .obj fs => fs
    | _ => []
  let normalized := input.foldl (fun acc p =>
    let boardId? := toNonEmptyString (.str p.1)
    let parsedF : List (String × Json) :=
      match p.2 with
      | .obj fs => fs
      | _ => []
    let status? := normalizeCompatibilityStatus (lookupJ parsedF "status")
    match boardId?, status? with
    | some boardId, some status =>
      let notes? := (lookupJ parsedF "notes").bind toNonEmptyString
      setKey acc boardId (.obj ([("status", .str status)] ++
        (match notes? with
         | some n => [("notes", .str n)]
         | none => [])))
    | _, _ => acc) []
  .obj (sortObjectKeys normalized)

/-- `deriveCompatibilitySummary(boardCompatibility)`: partition board ids
by status and normalize each list. -/
def deriveCompatibilitySummary (boardCompatibility : Json) : Json :=
  let fields : List (String × Json) :=
    match boardCompatibility with
    | .obj fs => fs
    | _ => []
  let byStatus (st : String) : List Json :=
    (fields.filterMap fun p =>
      match getField p.2 "status" with
      | some v => if jsStrictEq v (.str st) then some p.1 else none
      | none => none).map Json.str
  .obj [("workingBoards",
          .arr ((normalizeStringList (.arr (byStatus "working"))).map Json.str)),
        ("brokenBoards",
          .arr ((normalizeStringList (.arr (byStatus "broken"))).map Json.str)),
        ("untestedBoards",
          .arr ((normalizeStringList (.arr (byStatus "untested"))).map Json.str))]

/-- `normalizeCompatibilitySummary(rawValue, boardCompatibility)`: an
explicit summary with at least one board wins, else derive from the map. -/
def normalizeCompatibilitySummary (rawValue boardCompatibility : Json) : Json :=
  let inputF : List (String × Json) :=
    match rawValue with
    | .obj fs => fs
    | _ => []
  let w := normalizeStringList ((lookupJ inputF "workingBoards").getD .null)
  let b := normalizeStringList ((lookupJ inputF "brokenBoards").getD .null)
  let u := normalizeStringList ((lookupJ inputF "untestedBoards").getD .null)
  if w.length > 0 || b.length > 0 || u.length > 0 then
    .obj [("workingBoards", .arr (w.map Json.str)),
          ("brokenBoards", .arr (b.map Json.str)),
          ("untestedBoards", .arr (u.map Json.str))]
  else deriveCompatibilitySummary boardCompatibility

/-- The spread source `{...record.quality}` of `normalizeQuality`: the
nested quality object's fields when it is a truthy non-array object. -/
def qualityFields (record : Json) : List (String × Json) :=
  match getField record "quality" with
  | some (.obj fs) => fs
  | _ => []

/-- The per-flag resolution of `normalizeQuality`: a key present in the
nested quality object wins (even holding a non-boolean, in which case the
resolution is `null`); otherwise the top-level legacy field is consulted. -/
def resolveQualityFlag (quality : List (String × Json)) (record : Json)
    (flag : String) : Option Bool :=
  match lookupJ quality flag with
  | some v => toBoolOrNull v
  | none =>
    match getField record flag with
    | some v => toBoolOrNull v
    | none => none

/-- One optional-flag override `...(resolved === null ? {} : {flag})`. -/
def qualityStep (quality : List (String × Json)) (record : Json)
    (out : List (String × Json)) (flag : String) : List (String × Json) :=
  match resolveQualityFlag quality record flag with
  | some b => setKey out flag (.bool b)
  | none => out

/-- `normalizeQuality(record)`: spread the nested quality object, then
overwrite each of the three flags that resolved to a genuine boolean. -/
def normalizeQuality (record : Json) : Json :=
  let quality := qualityFields record
  let step := qualityStep quality record
  .obj (step (step (step quality "hasExamples") "hasReadme") "maintainerVerified")

/-- `parseLibIdFromRecord(record)`: the record's own `id`, else
`owner/libname` assembled and normalized. -/
def parseLibIdFromRecord (record : Json) : Option String :=
  match normalizeId ((getField record "id").getD .null) with
  | some id => some id
  | none =>
    match toNonEmptyString ((getField record "owner").getD .null),
          toNonEmptyString ((getField record "libname").getD .null) with
    | some owner, some libname => normalizeId (.str (owner ++ "/" ++ libname))
    | _, _ => none

/-- The array-shape branch of `readOverlayMap`: key each self-identifying
record by its recovered id, silently dropping records without one. -/
def reduceRecords (records : List Json) : List (String × Json) :=
  records.foldl (fun acc record =>
    match parseLibIdFromRecord record with
    | none => acc
    | some id => setKey acc id record) []

/-- `readOverlayMap()`: `parsedFile = none` models a missing overlay file
(ENOENT leaves the raw text `"{}"`, hence an empty object).  The three
accepted shapes are an array of records, `{libraries: [...]}`, and an
object map keyed by id; any other parsed value is a fatal error. -/
def readOverlayMap (parsedFile : Option Json) :
    Except String (List (String × Json)) :=
  let parsed := parsedFile.getD (.obj [])
  match parsed with
  | .arr records => .ok (reduceRecords records)
  | .obj fields =>
    match lookupJ fields "libraries" with
    | some (.arr records) => .ok (reduceRecords records)
    | _ => .ok (fields.foldl (fun acc p =>
        match (normalizeId (.str p.1)).orElse
            (fun _ => parseLibIdFromRecord p.2) with
        | none => acc
        | some id => setKey acc id p.2) [])
  | _ => .error "Overlay must be an object map keyed by library id or libraries array"

/-- `normalizeLibraryRecord(baseLib, overlayEntry)`: deep-merge the overlay
onto the discovered record, then rebuild every output field.  The output
`id` is always `baseLib.id` (an absent one is modelled as JSON null; the
script only ever passes records carrying their id). -/
def normalizeLibraryRecord (baseLib overlayEntry : Json) : Json :=
  let merged := deepMerge baseLib overlayEntry
  let id := (getField baseLib "id").getD .null
  let source : List (String × Json) :=
    match getField merged "source" with
    | some (.obj fs) => fs
    | _ => []
  let latest : Json :=
    match toNonEmptyString ((getField merged "latest").getD .null) with
    | some s => .str s
    | none =>
      match getField baseLib "latest" with
      | some v => if truthy v then v else .str "latest"
      | none => .str "latest"
  let versions := normalizeVersions ((getField merged "versions").getD .null) latest
  let boardCompatibility :=
    normalizeBoardCompatibility ((getField merged "boardCompatibility").getD .null)
  let compatibilitySummary :=
    normalizeCompatibilitySummary ((getField merged "compatibilitySummary").getD .null)
      boardCompatibility
  let supportStatus := normalizeSupportStatus ((getField merged "supportStatus").getD .null)
  let quality := normalizeQuality merged
  .obj ([("id", id),
    ("source", .obj
      [("provider", .str ((toNonEmptyString ((lookupJ source "provider").getD .null)).getD "xod.io")),
       ("url", .str ((toNonEmptyString ((lookupJ source "url").getD .null)).getD
         (XOD_LIBS_BASE_URL ++ jsToString id ++ "/")))]),
    ("latest", latest),
    ("versions", .arr versions),
    ("summary", .str ((toNonEmptyString ((getField merged "summary").getD .null)).getD "")),
    ("updatedAt", (toNonEmptyString ((getField merged "updatedAt").getD .null)).elim .null .str),
    ("license", (toNonEmptyString ((getField merged "license").getD .null)).elim .null .str),
    ("tags", .arr ((normalizeStringList ((getField merged "tags").getD .null)).map Json.str)),
    ("interfaces", .arr ((normalizeStringList ((getField merged "interfaces").getD .null)).map Json.str)),
    ("mcu", .arr ((normalizeStringList ((getField merged "mcu").getD .null)).map Json.str)),
    ("boardCompatibility", boardCompatibility),
    ("compatibilitySummary", compatibilitySummary)] ++
    (match supportStatus with
     | some s => [("supportStatus", .str s)]
     | none => []) ++
    [("quality", quality)])

/-- One invocation of `fetchHtml`: either a settled response object
`{ok, status, text}` or a thrown error message. -/
inductive FetchHtml where
  | resp (ok : Bool) (status : Nat) (text : String)
  | threw (msg : String)

/-- The `{ok, status, url, text}` result object `fetchHtmlWithRetry` hands
back to its caller (the `url` field is the request URL and carries no
information, so it is omitted). -/
structure HtmlResult where
  ok : Bool
  status : Nat
  text : String
deriving DecidableEq, Repr

/-- The `while (attempt <= retries)` loop of `fetchHtmlWithRetry`.
`f n` is the outcome of the `n`-th (1-based) `fetchHtml` call; `fuel` is
the number of attempts still allowed.  Returns the settled result or the
thrown exhaustion error, paired with the number of `fetchHtml` calls made. -/
def htmlRetryGo (f : Nat → FetchHtml) (url : String) (retries : Nat) :
    Nat → Nat → Option String → Except String HtmlResult × Nat
  | 0, _, lastErr =>
    (.error (exhaustMsg url (retries + 1) (lastErr.getD "")), 0)
  | fuel + 1, attempt, _ =>
    match f attempt with
    | .resp ok status text =>
      if ok || !isRetryableStatus status then (.ok ⟨ok, status, text⟩, 1)
      else
        let r := htmlRetryGo f url retries fuel (attempt + 1)
          (some ("HTTP " ++ toString status))
        (r.1, r.2 + 1)
    | .threw msg =>
      let r := htmlRetryGo f url retries fuel (attempt + 1) (some msg)
      (r.1, r.2 + 1)

/-- `fetchHtmlWithRetry(url, retries)`: up to `retries + 1` attempts.  A
response that is ok or carries a non-retryable status is returned as-is
(even when not ok); anything else backs off and retries. -/
def fetchHtmlWithRetry (f : Nat → FetchHtml) (url : String) (retries : Nat) :
    Except String HtmlResult × Nat :=
  htmlRetryGo f url retries (retries + 1) 1 none

end Sync

namespace Mirror

/-- `RETRYABLE_STATUS_CODES` of the mirror script (includes 408). -/
def RETRYABLE_STATUS_CODES : List Nat := [408, 429, 500, 502, 503, 504]

def MAX_FETCH_RETRIES : Nat := 4

def isRetryableStatus (s : Nat) : Bool := RETRYABLE_STATUS_CODES.contains s

/-- `prependVIfNeeded(version)`: `null` for empty/whitespace input, the
literal `latest` unchanged, a trimmed value starting with `v` unchanged,
anything else with `v` prepended. -/
def prependVIfNeeded (version : Json) : Option String :=
  match toNonEmptyString version with
  | none => none
  | some value =>
    if value = "latest" then some value
    else if startsWithV value then some value
    else some ("v" ++ value)

/-- The `{id, owner, libname}` triple `parseId` returns. -/
structure ParsedId where
  id : String
  owner : String
  libname : String
deriving DecidableEq, Repr

/-- `parseId(id)`: normalize, then split at the slash. -/
def parseId (id : Json) : Option ParsedId :=
  match normalizeId id with
  | none => none
  | some normalized =>
    let parts := jsSplitChar '/' normalized
    some ⟨normalized, parts.headD "", (parts[1]?).getD ""⟩

/-- One invocation of `fetchWithTimeout`: either a settled response (with
the result of a subsequent `response.json()` when consulted) or a thrown
error message. -/
inductive FetchJson where
  | resp (ok : Bool) (status : Nat) (body : Except String Json)
  | threw (msg : String)

/-- The regex test `/^HTTP\s\d+/.test(msg)` in the retry loop's catch. -/
def matchesHttpErr (m : String) : Bool :=
  match m.data with
  | 'H' :: 'T' :: 'T' :: 'P' :: w :: d :: _ => isJsSpace w && d.isDigit
  | _ => false

/-- `Number(tok)` for the token the catch extracts (`msg.split(' ')[1]`):
`none` is `NaN`.  (Number's full grammar — signs, floats — is irrelevant
for the `HTTP <digits>` messages this program produces.) -/
def jsNumberOfToken (t : String) : Option Int :=
  if t.data.isEmpty then some 0
  else if t.data.all Char.isDigit then
    some ((t.data.foldl (fun acc c => acc * 10 + (c.toNat - 48)) 0 : Nat) : Int)
  else none

/-- After catching `msg`, the loop breaks early when the message matches
`HTTP <n>` with a status outside the retryable set. -/
def breakOnCaught (m : String) : Bool :=
  matchesHttpErr m &&
    !(match jsNumberOfToken (((jsSplitChar ' ' m)[1]?).getD "") with
      | some n => (RETRYABLE_STATUS_CODES.map (Int.ofNat)).contains n
      | none => false)

/-- The `while (attempt <= retries)` loop of `fetchJsonWithRetry`.  A
non-ok response throws `HTTP <status>` internally; its own catch breaks
out (to the exhaustion error) when the status is not retryable.  Returns
the parsed body or the thrown exhaustion error, with the number of
`fetchWithTimeout` calls made. -/
def jsonRetryGo (f : Nat → FetchJson) (url : String) (retries : Nat) :
    Nat → Nat → Option String → Except String Json × Nat
  | 0, _, lastErr =>
    (.error (exhaustMsg url (retries + 1)
      (match lastErr with
       | some m => if m = "" then "unknown error" else m
       | none => "unknown error")), 0)
  | fuel + 1, attempt, _ =>
    match f attempt with
    | .resp ok status body =>
      if !ok then
        if !isRetryableStatus status then
          (.error (exhaustMsg url (retries + 1) ("HTTP " ++ toString status)), 1)
        else
          let r := jsonRetryGo f url retries fuel (attempt + 1)
            (some ("HTTP " ++ toString status))
          (r.1, r.2 + 1)
      else
        match body with
        | .ok j => (.ok j, 1)
        | .error m =>
          if breakOnCaught m then (.error (exhaustMsg url (retries + 1) m), 1)
          else
            let r := jsonRetryGo f url retries fuel (attempt + 1) (some m)
            (r.1, r.2 + 1)
    | .threw msg =>
      if breakOnCaught msg then (.error (exhaustMsg url (retries + 1) msg), 1)
      else
        let r := jsonRetryGo f url retries fuel (attempt + 1) (some msg)
        (r.1, r.2 + 1)

/-- `fetchJsonWithRetry(url, retries)`: up to `retries + 1` attempts. -/
def fetchJsonWithRetry (f : Nat → FetchJson) (url : String) (retries : Nat) :
    Except String Json × Nat :=
  jsonRetryGo f url retries (retries + 1) 1 none

/-- The historically tolerated parameter-name spellings for each
placeholder of the artifact endpoint's path template. -/
def aliasChoices (key : String) : List String :=
  if key = "orgname" then ["orgname", "owner", "org"]
  else if key = "libname" then ["libname", "library", "name"]
  else if key = "semver_or_latest" then ["semver_or_latest", "version", "semverOrLatest"]
  else [key]

/-- Characters `encodeURIComponent` leaves unescaped. -/
def isUnreservedURI (c : Char) : Bool :=
  c.isAlpha || c.isDigit ||
  c = '-' || c = '_' || c = '.' || c = '!' || c = '~' || c = '*' ||
  c = '\'' || c = '(' || c = ')'

def hexDigitChar (n : Nat) : Char :=
  if n < 10 then Char.ofNat (48 + n) else Char.ofNat (55 + n)

def percentEncodeByte (b : UInt8) : List Char :=
  ['%', hexDigitChar (b.toNat / 16), hexDigitChar (b.toNat % 16)]

/-- Model of JS `encodeURIComponent`: percent-encode the UTF-8 bytes of
every reserved character. -/
def encodeURIComponent (s : String) : String :=
  ⟨(s.data.map fun c =>
    if isUnreservedURI c then [c]
    else ((String.utf8EncodeChar c).map percentEncodeByte).flatten).flatten⟩

/-- The template walk of `buildPathFromTemplate`: replace each `{key}`
group (nonempty key, closed brace) by the encoded parameter chosen among
the key's accepted spellings; a key with no matching parameter throws.
`fuel` only makes the recursion structural: every step consumes at least
one character, so fuel = length of the remaining text never runs out. -/
def substTemplateAux (params : List (String × String)) :
    Nat → List Char → Except String (List Char)
  | _, [] => .ok []
  | 0, _ => .ok []
  | fuel + 1, '{' :: rest =>
    if (rest.takeWhile (fun c => c ≠ '}')).isEmpty then
      (substTemplateAux params fuel rest).map (fun tail => '{' :: tail)
    else
      match rest.dropWhile (fun c => c ≠ '}') with
      | [] => (substTemplateAux params fuel rest).map (fun tail => '{' :: tail)
      | _ :: after =>
        let key : String := ⟨rest.takeWhile (fun c => c ≠ '}')⟩
        match (aliasChoices key).find? (fun c => (lookupJ params c).isSome) with
        | none => .error ("Missing path parameter: " ++ key)
        | some choice =>
          (substTemplateAux params fuel after).map (fun tail =>
            (encodeURIComponent ((lookupJ params choice).getD "")).data ++ tail)
  | fuel + 1, c :: rest =>
    (substTemplateAux params fuel rest).map (fun tail => c :: tail)

/-- `buildPathFromTemplate(pathTemplate, params)`. -/
def buildPathFromTemplate (pathTemplate : String)
    (params : List (String × String)) : Except String String :=
  (substTemplateAux params pathTemplate.data.length pathTemplate.data).map
    (fun cs => (⟨cs⟩ : String))

/-- One mirror state entry (`state.artifacts[key]` / a manifest row). -/
structure Artifact where
  id : String
  owner : String
  libname : String
  version : String
  sourceProvider : String
  sourceUrl : String
  path : String
  sha256 : String
  bytes : Nat
  mirroredAt : String
deriving DecidableEq, Repr

/-- The run statistics the mirror accumulates. -/
structure Stats where
  totalCandidates : Nat
  downloaded : Nat
  skippedExisting : Nat
  failed : Nat
deriving DecidableEq, Repr

/-- The ambient effects of a mirror run: `fetch` is the outcome of one
`fetchJsonWithRetry` call per URL, `hash` the sha256 hex digest, and
`stringify` the deterministic `JSON.stringify(·, null, 2)` serializer
(their internals are irrelevant to the mirrored-state claims). -/
structure MirrorEnv where
  fetch : String → Except String Json
  hash : String → String
  stringify : Json → String
  now : String

/-- The evolving run state: the artifact map (started from prior state),
the statistics, the set of files present on disk (as relative paths), and
the cumulative number of retry-layer fetch invocations. -/
structure RunAcc where
  artifacts : List (String × Artifact)
  stats : Stats
  fsFiles : List String
  fetches : Nat

/-- The candidate key `id@version`. -/
def candidateKey (parsed : ParsedId) (version : String) : String :=
  parsed.id ++ "@" ++ version

/-- `path.posix.join('mirror', 'libs', owner, libname, version +
'.xodball.json')` (no `..` segments occur in normalized ids, so join is
plain concatenation). -/
def relativePathFor (parsed : ParsedId) (version : String) : String :=
  "mirror/libs/" ++ parsed.owner ++ "/" ++ parsed.libname ++ "/" ++
    version ++ ".xodball.json"

/-- The body of the inner `for (const version of versions)` loop of
`run()`: count the candidate; skip when prior state records this exact
relative path and the file exists; otherwise resolve the endpoint, fetch
once through the retry layer, and on success hash, write the file, and
overwrite the state entry.  Template or fetch failures only count as
`failed`. -/
def processCandidate (env : MirrorEnv) (pathTemplate apiBase : String)
    (parsed : ParsedId) (version : String) (acc : RunAcc) : RunAcc :=
  let stats := { acc.stats with totalCandidates := acc.stats.totalCandidates + 1 }
  let key := candidateKey parsed version
  let relativePath := relativePathFor parsed version
  let skip : Bool :=
    match lookupJ acc.artifacts key with
    | some existing => existing.path == relativePath && acc.fsFiles.contains relativePath
    | none => false
  if skip then
    { acc with stats := { stats with skippedExisting := stats.skippedExisting + 1 } }
  else
    match buildPathFromTemplate pathTemplate
      [("orgname", parsed.owner), ("libname", parsed.libname),
       ("semver_or_latest", version)] with
    | .error _ => { acc with stats := { stats with failed := stats.failed + 1 } }
    | .ok endpointPath =>
      let sourceUrl := apiBase ++ endpointPath
      match env.fetch sourceUrl with
      | .error _ =>
        { acc with stats := { stats with failed := stats.failed + 1 },
                   fetches := acc.fetches + 1 }
      | .ok xodball =>
        let content := env.stringify xodball ++ "\n"
        let entry : Artifact :=
          { id := parsed.id, owner := parsed.owner, libname := parsed.libname,
            version := version, sourceProvider := "xod.io",
            sourceUrl := sourceUrl, path := relativePath,
            sha256 := env.hash content, bytes := content.utf8ByteSize,
            mirroredAt := env.now }
        { artifacts := setKey acc.artifacts key entry,
          stats := { stats with downloaded := stats.downloaded + 1 },
          fsFiles := if acc.fsFiles.contains relativePath then acc.fsFiles
                     else acc.fsFiles ++ [relativePath],
          fetches := acc.fetches + 1 }

/-- The version list of one library record:
`uniqStrings((Array.isArray(lib.versions) ? lib.versions :
[lib.latest]).map(prependVIfNeeded).filter(Boolean))`. -/
def candidateVersions (lib : Json) : List String :=
  let raw : List Json :=
    match getField lib "versions" with
    | some (.arr es) => es
    | _ => [(getField lib "latest").getD .null]
  uniqStrings ((raw.filterMap prependVIfNeeded).map Json.str)

/-- The `id` of a record that passed the `normalizeId` filter (always a
string there). -/
def libIdString (lib : Json) : String :=
  match getField lib "id" with
  | some (.str s) => s
  | _ => ""

/-- The candidate-enumeration phase of `run()`: filter records with a
normalizable id, sort by id, and process every `(id, version)` pair,
starting from the prior artifacts map spread into `nextArtifacts`. -/
def runMirror (env : MirrorEnv) (pathTemplate apiBase : String)
    (libraries : List Json) (priorArtifacts : List (String × Artifact))
    (fsFiles : List String) : RunAcc :=
  let sortedLibraries :=
    sortByCmp (fun a b => localeCompare (libIdString a) (libIdString b))
      (libraries.filter fun lib =>
        (normalizeId ((getField lib "id").getD .null)).isSome)
  sortedLibraries.foldl (fun acc lib =>
    match parseId ((getField lib "id").getD .null) with
    | none => acc
    | some parsed =>
      (candidateVersions lib).foldl
        (fun a v => processCandidate env pathTemplate apiBase parsed v a) acc)
    { artifacts := priorArtifacts, stats := ⟨0, 0, 0, 0⟩,
      fsFiles := fsFiles, fetches := 0 }

/-- `toArtifactsFromState(state)`: the entries carrying a truthy id and
version, sorted by id then version. -/
def toArtifactsFromState (state : List (String × Artifact)) : List Artifact :=
  sortByCmp (fun a b =>
      let byId := localeCompare a.id b.id
      if byId ≠ 0 then byId else localeCompare a.version b.version)
    ((state.map Prod.snd).filter fun e => e.id ≠ "" && e.version ≠ "")

/-- The state key `${item.id}@${item.version}` of one artifact entry. -/
def artifactKey (item : Artifact) : String := item.id ++ "@" ++ item.version

/-- The state write-back: the manifest's sorted artifact array reduced
back into a map keyed `id@version`. -/
def rekeyArtifacts (artifacts : List Artifact) : List (String × Artifact) :=
  artifacts.foldl (fun acc item => setKey acc (artifactKey item) item) []

/-- The `artifacts` map persisted to `mirror/state.json` at the end of a
run with final in-memory map `next`. -/
def finalStateArtifacts (next : List (String × Artifact)) :
    List (String × Artifact) :=
  rekeyArtifacts (toArtifactsFromState next)

/-- A state map as the mirror script itself persists it: unique keys, each
entry carrying nonempty id and version and stored under `id@version`. -/
def WellFormedState (st : List (String × Artifact)) : Prop :=
  (st.map Prod.fst).Nodup ∧
  ∀ p ∈ st, p.2.id ≠ "" ∧ p.2.version ≠ "" ∧ p.1 = artifactKey p.2

instance (st : List (String × Artifact)) : Decidable (WellFormedState st) := by
  unfold WellFormedState
  infer_instance

/-- Every key of `prior` survives in `cur`: either with its entry
unchanged or overwritten by an entry freshly mirrored at `now`. -/
def CarriedFrom (now : String) (prior cur : List (String × Artifact)) : Prop :=
  ∀ k, lookupJ cur k = lookupJ prior k ∨
    ∃ e', lookupJ cur k = some e' ∧ e'.mirroredAt = now

end Mirror

/-- The JS value a JS function returning `string | null` hands to its next
caller (used to feed `prependVIfNeeded` its own result). -/
def optToJson : Option String → Json
  | none => .null
  | some s => .str s

/-! Concrete fixtures used by witnesses and counterexamples. -/

/-- The artifact endpoint's path template as served by the registry's
service description. -/
def fixTemplate : String := "/libs/{orgname}/{libname}/{semver_or_latest}/xodball"

def fixApiBase : String := "https://pm.xod.io"

/-- A deterministic environment: every fetch succeeds with an empty
object, hashing and serialization are fixed functions. -/
def fixEnv : Mirror.MirrorEnv :=
  { fetch := fun _ => .ok (.obj []),
    hash := fun s => "sha-" ++ toString s.length,
    stringify := fun _ => "{}",
    now := "2026-01-01T00:00:00.000Z" }

def fixParsed : Mirror.ParsedId := ⟨"acme/blink", "acme", "blink"⟩

/-- A prior-state entry recording `acme/blink@v1.0.0` at its canonical
relative path. -/
def fixEntry : Mirror.Artifact :=
  { id := "acme/blink", owner := "acme", libname := "blink",
    version := "v1.0.0", sourceProvider := "xod.io",
    sourceUrl := "https://pm.xod.io/libs/acme/blink/v1.0.0/xodball",
    path := Mirror.relativePathFor fixParsed "v1.0.0",
    sha256 := "sha-3", bytes := 3,
    mirroredAt := "2025-01-01T00:00:00.000Z" }

/-- A run accumulator before processing a candidate. -/
def fixAcc (arts : List (String × Mirror.Artifact)) (fs : List String) :
    Mirror.RunAcc :=
  { artifacts := arts, stats := ⟨0, 0, 0, 0⟩, fsFiles := fs, fetches := 0 }

/-- A self-identifying overlay record. -/
def fixRecord : Json := .obj [("id", .str "Foo/Bar"), ("summary", .str "curated")]

/-- A malformed prior-state entry (empty id), as a hand-edited or
corrupted `state.json` could contain. -/
def fixBadEntry : Mirror.Artifact := { fixEntry with id := "" }

/-- A prior-state entry recording the candidate under a non-canonical
path (as an older layout would have), with the file present there. -/
def fixStaleEntry : Mirror.Artifact :=
  { fixEntry with path := "old/acme/blink/v1.0.0.json" }

def fixStaleAcc : Mirror.RunAcc :=
  fixAcc [("acme/blink@v1.0.0", fixStaleEntry)] ["old/acme/blink/v1.0.0.json"]

end Xod

/-! ### Helper lemmas -/

namespace Xod

theorem lookupJ_setKey {β : Type} (fs : List (String × β)) (k k' : String)
    (v : β) :
    lookupJ (setKey fs k v) k' = if k = k' then some v else lookupJ fs k' := by
  induction fs with
  | nil => rfl
  | cons p rest ih =>
    obtain ⟨k0, v0⟩ := p
    simp only [setKey]
    by_cases h0 : k0 = k
    · subst h0
      by_cases h' : k0 = k' <;> simp [lookupJ, h']
    · simp only [if_neg h0, lookupJ]
      by_cases h' : k0 = k'
      · have hk : ¬ k = k' := fun hkk => h0 (h'.trans hkk.symm)
        simp [h', hk]
      · simp [h', ih]

theorem mem_setKey {β : Type} (fs : List (String × β)) (k : String) (v : β)
    (p : String × β) : p ∈ setKey fs k v → p ∈ fs ∨ p = (k, v) := by
  induction fs with
  | nil =>
    intro hp
    exact .inr (by simpa [setKey] using hp)
  | cons q rest ih =>
    obtain ⟨k0, v0⟩ := q
    intro hp
    simp only [setKey] at hp
    by_cases h0 : k0 = k
    · subst h0
      rw [if_pos rfl] at hp
      rcases List.mem_cons.mp hp with h | h
      · exact .inr (by simp [h])
      · exact .inl (List.mem_cons_of_mem _ h)
    · simp only [if_neg h0, List.mem_cons] at hp
      rcases hp with h | h
      · exact .inl (by simp [h])
      · rcases ih h with h' | h'
        · exact .inl (List.mem_cons_of_mem _ h')
        · exact .inr h'

theorem keys_setKey {β : Type} (fs : List (String × β)) (k : String) (v : β) :
    (setKey fs k v).map Prod.fst =
      if k ∈ fs.map Prod.fst then fs.map Prod.fst
      else fs.map Prod.fst ++ [k] := by
  induction fs with
  | nil => simp [setKey]
  | cons q rest ih =>
    obtain ⟨k0, v0⟩ := q
    simp only [setKey]
    by_cases h0 : k0 = k
    · subst h0
      simp [List.mem_cons]
    · simp only [if_neg h0, List.map_cons, ih, List.mem_cons]
      have : ¬ k = k0 := fun h => h0 h.symm
      by_cases hm : k ∈ rest.map Prod.fst <;> simp [hm, this]

theorem keys_nodup_setKey {β : Type} {fs : List (String × β)}
    (h : (fs.map Prod.fst).Nodup) (k : String) (v : β) :
    ((setKey fs k v).map Prod.fst).Nodup := by
  rw [keys_setKey]
  by_cases hm : k ∈ fs.map Prod.fst
  · simpa [hm]
  · simpa [hm] using List.Nodup.append h (List.nodup_singleton k)
      (by simpa [List.disjoint_singleton] using hm)

theorem mem_of_mem_dedupFirstAux : ∀ (l : List String) (seen : List String)
    (x : String), x ∈ dedupFirstAux seen l → x ∈ l := by
  intro l
  induction l with
  | nil => intro seen x hx; simp [dedupFirstAux] at hx
  | cons a rest ih =>
    intro seen x hx
    rw [dedupFirstAux] at hx
    by_cases hc : seen.contains a = true
    · rw [if_pos hc] at hx
      exact List.mem_cons_of_mem _ (ih seen x hx)
    · rw [if_neg hc] at hx
      rcases List.mem_cons.mp hx with h | h
      · exact h ▸ List.mem_cons_self _ _
      · exact List.mem_cons_of_mem _ (ih _ x h)

theorem not_mem_seen_of_mem_dedupFirstAux : ∀ (l : List String)
    (seen : List String) (y : String), y ∈ dedupFirstAux seen l → y ∉ seen := by
  intro l
  induction l with
  | nil => intro seen y hy; simp [dedupFirstAux] at hy
  | cons a rest ih =>
    intro seen y hy
    rw [dedupFirstAux] at hy
    by_cases hc : seen.contains a = true
    · rw [if_pos hc] at hy
      exact ih seen y hy
    · rw [if_neg hc] at hy
      rcases List.mem_cons.mp hy with h | h
      · subst h
        intro hmem
        exact hc (List.elem_eq_true_of_mem hmem)
      · intro hmem
        exact (ih (a :: seen) y h) (List.mem_cons_of_mem _ hmem)

theorem nodup_dedupFirstAux : ∀ (l : List String) (seen : List String),
    (dedupFirstAux seen l).Nodup := by
  intro l
  induction l with
  | nil => intro seen; simp [dedupFirstAux]
  | cons a rest ih =>
    intro seen
    rw [dedupFirstAux]
    by_cases hc : seen.contains a = true
    · rw [if_pos hc]; exact ih seen
    · rw [if_neg hc]
      refine List.nodup_cons.mpr ⟨fun hmem => ?_, ih (a :: seen)⟩
      exact (not_mem_seen_of_mem_dedupFirstAux rest (a :: seen) a hmem)
        (List.mem_cons_self _ _)

theorem mem_of_mem_dedupFirst {l : List String} {x : String}
    (hx : x ∈ dedupFirst l) : x ∈ l :=
  mem_of_mem_dedupFirstAux l [] x hx

theorem nodup_dedupFirst (l : List String) : (dedupFirst l).Nodup :=
  nodup_dedupFirstAux l []

theorem mem_uniqStrings_ne_empty {values : List Json} {v : String}
    (hv : v ∈ uniqStrings values) : v ≠ "" := by
  have hm := mem_of_mem_dedupFirst hv
  rcases List.mem_filterMap.mp hm with ⟨x, _, hx⟩
  match x with
  | .str s =>
    by_cases h : jsTrim s = "" <;> simp [h] at hx
    exact hx ▸ h
  | .null | .bool _ | .num _ | .arr _ | .obj _ => simp at hx

theorem head?_dropWhile (p : Char → Bool) (l : List Char) :
    match (l.dropWhile p).head? with
    | some c => p c = false
    | none => True := by
  induction l with
  | nil => simp
  | cons a t ih =>
    by_cases h : p a
    · simpa [List.dropWhile, h] using ih
    · simpa [List.dropWhile, h] using Bool.of_not_eq_true h

theorem dropWhile_eq_self (p : Char → Bool) (l : List Char)
    (h : match l.head? with
         | some c => p c = false
         | none => True) : l.dropWhile p = l := by
  cases l with
  | nil => rfl
  | cons a t => simp only [List.head?] at h; simp [List.dropWhile, h]

theorem dropTrail_dropTrail (p : Char → Bool) :
    ∀ (l : List Char), dropTrail p (dropTrail p l) = dropTrail p l := by
  intro l
  induction l with
  | nil => rfl
  | cons a t ih =>
    rw [dropTrail]
    cases ht : dropTrail p t with
    | nil =>
      by_cases h : p a
      · simp [h, dropTrail]
      · simp [h, dropTrail, ht]
    | cons b u =>
      rw [ht] at ih
      rw [dropTrail, ih]

theorem dropTrail_head? (p : Char → Bool) :
    ∀ (l : List Char), dropTrail p l = [] ∨ (dropTrail p l).head? = l.head? := by
  intro l
  cases l with
  | nil => exact .inl rfl
  | cons a t =>
    rw [dropTrail]
    cases dropTrail p t with
    | nil =>
      by_cases h : p a
      · simp [h]
      · simp [h]
    | cons b u => simp

theorem jsTrim_data (s : String) :
    (jsTrim s).data = dropTrail isJsSpace (s.data.dropWhile isJsSpace) := rfl

theorem jsTrim_idem (s : String) : jsTrim (jsTrim s) = jsTrim s := by
  have hw : (jsTrim s).data.dropWhile isJsSpace = (jsTrim s).data := by
    apply dropWhile_eq_self
    rcases dropTrail_head? isJsSpace (s.data.dropWhile isJsSpace) with h | h
    · rw [jsTrim_data, h]; simp
    · rw [jsTrim_data, h]
      exact head?_dropWhile isJsSpace s.data
  show (⟨dropTrail isJsSpace ((jsTrim s).data.dropWhile isJsSpace)⟩ : String) = jsTrim s
  rw [hw, jsTrim_data, dropTrail_dropTrail]
  rfl

theorem ne_empty_iff_data {s : String} : s ≠ "" ↔ s.data ≠ [] := by
  obtain ⟨d⟩ := s
  constructor
  · intro h hd
    exact h (congrArg String.mk hd)
  · intro h hs
    exact h (congrArg String.data hs)

theorem jsTrim_v_cons (s : String) (h : jsTrim s ≠ "") :
    jsTrim ⟨'v' :: (jsTrim s).data⟩ = ⟨'v' :: (jsTrim s).data⟩ := by
  have hdata : (jsTrim s).data ≠ [] := ne_empty_iff_data.mp h
  have hv : isJsSpace 'v' = false := by decide
  have htr : dropTrail isJsSpace (jsTrim s).data = (jsTrim s).data := by
    rw [jsTrim_data, dropTrail_dropTrail]
  show (⟨dropTrail isJsSpace (('v' :: (jsTrim s).data).dropWhile isJsSpace)⟩ : String) = _
  rw [List.dropWhile_cons_of_neg (by simp [hv])]
  rw [dropTrail]
  cases hd : (jsTrim s).data with
  | nil => exact absurd hd hdata
  | cons b u => rw [hd] at htr; rw [htr]

end Xod

/-! ### Claim C1: retryable-status classification of the two fetch layers -/

namespace Xod

/-- C1 counterexample: status 408 is NOT in the sync script's
`RETRYABLE_STATUS_CODES`, while it IS in the mirror script's, so 408 is
not retryable in the HTML-returning layer and the two classifications are
not identical, contrary to the claim. -/
theorem c1_counterexample :
    Sync.isRetryableStatus 408 = false ∧ Mirror.isRetryableStatus 408 = true := by
  decide

/-- C1 (amended): 408 is retryable only in the mirror's JSON-returning
layer.  The sync HTML-returning layer treats every status but
429/500/502/503/504 as non-retryable — a persistent 408 is returned as a
non-ok result after a single attempt — while the mirror layer retries a
persistent 408 to exhaustion (5 attempts); on every status other than 408
the two classifications agree. -/
theorem c1_retryable_classification :
    (∀ s : Nat, s ≠ 408 → Sync.isRetryableStatus s = Mirror.isRetryableStatus s) ∧
    (∀ url : String,
      Sync.fetchHtmlWithRetry (fun _ => .resp false 408 "") url Sync.MAX_FETCH_RETRIES
        = (.ok ⟨false, 408, ""⟩, 1)) ∧
    (∀ url : String,
      (Mirror.fetchJsonWithRetry (fun _ => .resp false 408 (.error "boom")) url
        Mirror.MAX_FETCH_RETRIES).2 = 5) := by
  refine ⟨?_, fun _ => rfl, fun _ => rfl⟩
  intro s hs
  simp only [Sync.isRetryableStatus, Mirror.isRetryableStatus,
    Sync.RETRYABLE_STATUS_CODES, Mirror.RETRYABLE_STATUS_CODES]
  simp [List.contains_cons, hs]

/-- Witness for C1: the shared hypothesis is satisfiable (e.g. at 503). -/
theorem c1_retryable_classification_witness :
    Sync.isRetryableStatus 503 = Mirror.isRetryableStatus 503 :=
  c1_retryable_classification.1 503 (by decide)

end Xod

/-! ### Claim C4: overlay shapes and malformed-overlay handling -/

namespace Xod

/-- C4 counterexample: an array overlay whose only record has no
recoverable identifier silently degrades to an empty overlay map (no
error), contradicting the claim that content with no recoverable
identifier raises a fatal error. -/
theorem c4_counterexample :
    Sync.readOverlayMap (some (.arr [.obj []])) = .ok [] := rfl

/-- C4 (amended): `readOverlayMap` accepts the three overlay shapes and
normalizes them to the same map keyed by canonical identifier; a parsed
value that is neither an object nor an array raises a fatal error; an
absent overlay file yields an empty map; but entries with no recoverable
identifier are silently skipped, not fatal. -/
theorem c4_overlay_shapes :
    Sync.readOverlayMap none = .ok [] ∧
    (∀ s : String, Sync.readOverlayMap (some (.str s))
      = .error "Overlay must be an object map keyed by library id or libraries array") ∧
    (∀ n : Int, Sync.readOverlayMap (some (.num n))
      = .error "Overlay must be an object map keyed by library id or libraries array") ∧
    (∀ b : Bool, Sync.readOverlayMap (some (.bool b))
      = .error "Overlay must be an object map keyed by library id or libraries array") ∧
    Sync.readOverlayMap (some .null)
      = .error "Overlay must be an object map keyed by library id or libraries array" ∧
    Sync.readOverlayMap (some (.obj [("Foo/Bar", fixRecord)]))
      = .ok [("foo/bar", fixRecord)] ∧
    Sync.readOverlayMap (some (.arr [fixRecord]))
      = .ok [("foo/bar", fixRecord)] ∧
    Sync.readOverlayMap (some (.obj [("libraries", .arr [fixRecord])]))
      = .ok [("foo/bar", fixRecord)] ∧
    Sync.readOverlayMap (some (.arr [.obj [], fixRecord]))
      = .ok [("foo/bar", fixRecord)] :=
  ⟨rfl, fun _ => rfl, fun _ => rfl, fun _ => rfl, rfl, rfl, rfl, rfl, rfl⟩

end Xod

/-! ### Claim C8: retry exhaustion after exactly five attempts -/

namespace Xod

/-- C8: when every attempt yields HTTP 503, both retry layers make exactly
`MAX_FETCH_RETRIES + 1 = 5` fetch attempts (the second pair component
counts attempts — no sixth occurs) and then throw an error naming the
URL, the attempt count, and the last error. -/
theorem c8_retry_exhaustion :
    ∀ url : String,
      Sync.fetchHtmlWithRetry (fun _ => .resp false 503 "") url Sync.MAX_FETCH_RETRIES
        = (.error (exhaustMsg url 5 "HTTP 503"), 5) ∧
      Mirror.fetchJsonWithRetry (fun _ => .resp false 503 (.error "parse error")) url
          Mirror.MAX_FETCH_RETRIES
        = (.error (exhaustMsg url 5 "HTTP 503"), 5) ∧
      exhaustMsg url 5 "HTTP 503"
        = "Failed to fetch " ++ url ++ " after 5 attempts: HTTP 503" := by
  intro url
  refine ⟨rfl, rfl, ?_⟩
  simp only [exhaustMsg, String.append_assoc]
  congr 1

end Xod

/-! ### Claim C10: idempotence of prependVIfNeeded -/

namespace Xod

theorem append_v_data (t : String) : ("v" ++ t).data = 'v' :: t.data := by
  obtain ⟨d⟩ := t
  rfl

theorem jsTrim_append_v (v : String) (h : jsTrim v ≠ "") :
    jsTrim ("v" ++ jsTrim v) = "v" ++ jsTrim v := by
  have h1 : ("v" ++ jsTrim v) = (⟨'v' :: (jsTrim v).data⟩ : String) := by
    cases hd : jsTrim v with
    | mk d => rw [← hd]; exact congrArg String.mk (append_v_data _)
  rw [h1]
  exact jsTrim_v_cons v h

theorem v_append_ne_latest (t : String) : "v" ++ t ≠ "latest" := by
  intro h
  have := congrArg String.data h
  rw [append_v_data] at this
  injection this with h1 _
  exact absurd h1 (by decide)

theorem startsWithV_append (t : String) : startsWithV ("v" ++ t) = true := by
  unfold startsWithV
  rw [append_v_data]
  simp

/-- C10: `prependVIfNeeded` is idempotent, with the concrete clauses. -/
theorem c10_prependV_idempotent :
    (∀ v : String,
      Mirror.prependVIfNeeded (optToJson (Mirror.prependVIfNeeded (.str v)))
        = Mirror.prependVIfNeeded (.str v)) ∧
    (∀ v : String, jsTrim v = "" → Mirror.prependVIfNeeded (.str v) = none) ∧
    Mirror.prependVIfNeeded (.str "latest") = some "latest" ∧
    (∀ v : String, jsTrim v ≠ "" → startsWithV (jsTrim v) = true →
      Mirror.prependVIfNeeded (.str v) = some (jsTrim v)) ∧
    (∀ v : String, jsTrim v ≠ "" → jsTrim v ≠ "latest" →
      startsWithV (jsTrim v) = false →
      Mirror.prependVIfNeeded (.str v) = some ("v" ++ jsTrim v)) := by
  have hbase : ∀ v : String, jsTrim v ≠ "" →
      Mirror.prependVIfNeeded (.str v) =
        (if jsTrim v = "latest" then some (jsTrim v)
         else if startsWithV (jsTrim v) then some (jsTrim v)
         else some ("v" ++ jsTrim v)) := by
    intro v hv
    simp only [Mirror.prependVIfNeeded, toNonEmptyString, if_neg hv]
  have hlatest_ne_v : startsWithV "latest" = false := by decide
  refine ⟨?_, ?_, rfl, ?_, ?_⟩
  · intro v
    by_cases h0 : jsTrim v = ""
    · simp only [Mirror.prependVIfNeeded, toNonEmptyString, if_pos h0, optToJson]
    · rw [hbase v h0]
      by_cases h1 : jsTrim v = "latest"
      · simp only [if_pos h1, h1, optToJson]
        rfl
      · by_cases h2 : startsWithV (jsTrim v) = true
        · simp only [if_neg h1, if_pos h2, optToJson]
          rw [hbase (jsTrim v) (by rw [jsTrim_idem]; exact h0)]
          rw [jsTrim_idem, if_neg h1, if_pos h2]
        · rw [if_neg h1, if_neg h2]
          simp only [optToJson]
          have hne : jsTrim ("v" ++ jsTrim v) = "v" ++ jsTrim v := jsTrim_append_v v h0
          have hnonempty : jsTrim ("v" ++ jsTrim v) ≠ "" := by
            rw [hne]
            rw [ne_empty_iff_data, append_v_data]
            simp
          rw [hbase _ hnonempty, hne, if_neg (v_append_ne_latest _),
            if_pos (startsWithV_append _)]
  · intro v hv
    simp only [Mirror.prependVIfNeeded, toNonEmptyString, if_pos hv]
  · intro v hv hsw
    rw [hbase v hv]
    have h1 : jsTrim v ≠ "latest" := by
      intro h
      rw [h] at hsw
      exact absurd hsw (by simp [hlatest_ne_v])
    rw [if_neg h1, if_pos hsw]
  · intro v hv h1 hsw
    rw [hbase v hv, if_neg h1, hsw]
    simp

end Xod

namespace Xod

/-- Witness for C10: the hypotheses of the conditional clauses are
satisfiable, e.g. at the input " 1.0 ". -/
theorem c10_prependV_idempotent_witness :
    jsTrim " 1.0 " ≠ "" ∧
    Mirror.prependVIfNeeded (.str " 1.0 ") = some ("v" ++ jsTrim " 1.0 ") :=
  ⟨by decide,
   c10_prependV_idempotent.2.2.2.2 " 1.0 " (by decide) (by decide) (by decide)⟩

end Xod

/-! ### Claim C3: quality-flag resolution -/

namespace Xod

theorem lookupJ_qualityStep_ne (q : List (String × Json)) (r : Json)
    (out : List (String × Json)) (f f' : String) (h : f' ≠ f) :
    lookupJ (Sync.qualityStep q r out f') f = lookupJ out f := by
  unfold Sync.qualityStep
  cases Sync.resolveQualityFlag q r f' with
  | none => rfl
  | some b => rw [lookupJ_setKey, if_neg h]

theorem lookupJ_qualityStep_eq (q : List (String × Json)) (r : Json)
    (out : List (String × Json)) (f : String) :
    lookupJ (Sync.qualityStep q r out f) f =
      match Sync.resolveQualityFlag q r f with
      | some b => some (.bool b)
      | none => lookupJ out f := by
  unfold Sync.qualityStep
  cases Sync.resolveQualityFlag q r f with
  | none => rfl
  | some b => rw [lookupJ_setKey, if_pos rfl]

/-- C3 counterexample: a nested `quality.hasExamples` holding the
non-boolean `"yes"` resolves to null yet is NOT omitted from the output —
it passes through via the quality-object spread — whereas the claim
requires a present non-boolean flag to be omitted. -/
theorem c3_counterexample :
    getField (Sync.normalizeQuality
        (.obj [("quality", .obj [("hasExamples", .str "yes")])])) "hasExamples"
      = some (.str "yes") ∧
    toBoolOrNull (.str "yes") = none := ⟨rfl, rfl⟩

/-- C3 (amended): in the output of `normalizeQuality`, a flag key present
in the nested quality object passes through with its value (overwritten
by the equal boolean when it is one); a flag absent from the nested
object is taken from the top-level legacy field and appears iff that
resolved to a genuine boolean; every other key passes through unchanged.
Thus a flag is a genuine boolean in the output unless the nested quality
object itself held a non-boolean, which is retained, not omitted. -/
theorem c3_quality_flags :
    (∀ (record : Json) (flag : String),
      flag = "hasExamples" ∨ flag = "hasReadme" ∨ flag = "maintainerVerified" →
      getField (Sync.normalizeQuality record) flag =
        (match lookupJ (Sync.qualityFields record) flag with
         | some v => some v
         | none => ((getField record flag).bind toBoolOrNull).map Json.bool)) ∧
    (∀ (record : Json) (k : String),
      k ≠ "hasExamples" → k ≠ "hasReadme" → k ≠ "maintainerVerified" →
      getField (Sync.normalizeQuality record) k =
        lookupJ (Sync.qualityFields record) k) := by
  have hres : ∀ (record : Json) (flag : String),
      (match Sync.resolveQualityFlag (Sync.qualityFields record) record flag with
       | some b => some (Json.bool b)
       | none => lookupJ (Sync.qualityFields record) flag) =
      (match lookupJ (Sync.qualityFields record) flag with
       | some v => some v
       | none => ((getField record flag).bind toBoolOrNull).map Json.bool) := by
    intro record flag
    unfold Sync.resolveQualityFlag
    cases hq : lookupJ (Sync.qualityFields record) flag with
    | some v =>
      cases v with
      | bool b => rfl
      | null => rfl
      | num n => rfl
      | str s => rfl
      | arr es => rfl
      | obj fs => rfl
    | none =>
      cases hr : getField record flag with
      | some v => cases v <;> rfl
      | none => rfl
  constructor
  · intro record flag hmem
    show lookupJ _ flag = _
    rcases hmem with rfl | rfl | rfl
    · rw [lookupJ_qualityStep_ne _ _ _ _ _ (by decide),
        lookupJ_qualityStep_ne _ _ _ _ _ (by decide),
        lookupJ_qualityStep_eq]
      exact hres record _
    · rw [lookupJ_qualityStep_ne _ _ _ _ _ (by decide),
        lookupJ_qualityStep_eq, lookupJ_qualityStep_ne _ _ _ _ _ (by decide)]
      exact hres record _
    · rw [lookupJ_qualityStep_eq, lookupJ_qualityStep_ne _ _ _ _ _ (by decide),
        lookupJ_qualityStep_ne _ _ _ _ _ (by decide)]
      exact hres record _
  · intro record k h1 h2 h3
    show lookupJ _ k = _
    rw [lookupJ_qualityStep_ne _ _ _ _ _ (fun h => h3 h.symm),
      lookupJ_qualityStep_ne _ _ _ _ _ (fun h => h2 h.symm),
      lookupJ_qualityStep_ne _ _ _ _ _ (fun h => h1 h.symm)]

/-- Witness for C3: the flag-membership hypothesis is satisfiable, e.g.
for `hasReadme` on a record carrying only the legacy field. -/
theorem c3_quality_flags_witness :
    getField (Sync.normalizeQuality (.obj [("hasReadme", .bool true)])) "hasReadme"
      = (match lookupJ (Sync.qualityFields (.obj [("hasReadme", .bool true)])) "hasReadme" with
         | some v => some v
         | none => ((getField (.obj [("hasReadme", .bool true)]) "hasReadme").bind
             toBoolOrNull).map Json.bool) :=
  c3_quality_flags.1 (.obj [("hasReadme", .bool true)]) "hasReadme"
    (Or.inr (Or.inl rfl))

end Xod

/-! ### Claim C5: semantic-version ordering -/

namespace Xod

theorem nodup_uniqStrings (values : List Json) : (uniqStrings values).Nodup :=
  nodup_dedupFirst _

theorem json_str_injective : Function.Injective Json.str := by
  intro a b h
  injection h

theorem nodup_normalizeVersions (versions : Json) (s : String) :
    (Sync.normalizeVersions versions (.str s)).Nodup := by
  simp only [Sync.normalizeVersions]
  set base := (uniqStrings
    ((match versions with
      | .arr es => es
      | _ => []).filterMap fun x =>
      (toNonEmptyString x).map Json.str)).map Json.str with hbase
  have hnd : base.Nodup :=
    (nodup_uniqStrings _).map json_str_injective
  by_cases hc : (truthy (.str s) &&
      !(base.any fun v => jsStrictEq v (.str s))) = true
  · rw [if_pos hc]
    have hmem : (.str s : Json) ∉ base := by
      intro hmem
      have hany : base.any (fun v => jsStrictEq v (.str s)) = true :=
        List.any_eq_true.mpr ⟨_, hmem, by simp [jsStrictEq]⟩
      rw [Bool.and_eq_true] at hc
      rw [hany] at hc
      simpa using hc.2
    have hnodup : ((.str s : Json) :: base).Nodup :=
      List.nodup_cons.mpr ⟨hmem, hnd⟩
    by_cases he :
        (sortByCmp semverCompareDesc ((.str s : Json) :: base)).isEmpty = true
    · rw [if_pos he]
      simp
    · rw [if_neg he]
      exact ((List.perm_insertionSort _ _).nodup_iff).mpr hnodup
  · rw [if_neg hc]
    by_cases he : (sortByCmp semverCompareDesc base).isEmpty = true
    · rw [if_pos he]
      simp
    · rw [if_neg he]
      exact ((List.perm_insertionSort _ _).nodup_iff).mpr hnd

/-- C5: version lists are deduplicated and sorted descending by
`semverCompareDesc`, which compares the numeric major, minor, then patch
components, places a version with no prerelease suffix before a suffixed
one at equal core, and compares two suffixed versions lexicographically
by suffix; on `["1.2.0","1.10.0","1.2.0-beta"]` the normalized descending
order is `["1.10.0","1.2.0","1.2.0-beta"]`. -/
theorem c5_version_ordering :
    Sync.normalizeVersions
        (.arr [.str "1.2.0", .str "1.10.0", .str "1.2.0-beta"]) (.str "1.10.0")
      = [.str "1.10.0", .str "1.2.0", .str "1.2.0-beta"] ∧
    (∀ a b : Json,
      (semverParse a).1.getD 0 0 ≠ (semverParse b).1.getD 0 0 →
      semverCompareDesc a b
        = (semverParse b).1.getD 0 0 - (semverParse a).1.getD 0 0) ∧
    (∀ a b : Json,
      (semverParse a).1.getD 0 0 = (semverParse b).1.getD 0 0 →
      (semverParse a).1.getD 1 0 ≠ (semverParse b).1.getD 1 0 →
      semverCompareDesc a b
        = (semverParse b).1.getD 1 0 - (semverParse a).1.getD 1 0) ∧
    (∀ a b : Json,
      (semverParse a).1.getD 0 0 = (semverParse b).1.getD 0 0 →
      (semverParse a).1.getD 1 0 = (semverParse b).1.getD 1 0 →
      (semverParse a).1.getD 2 0 ≠ (semverParse b).1.getD 2 0 →
      semverCompareDesc a b
        = (semverParse b).1.getD 2 0 - (semverParse a).1.getD 2 0) ∧
    (∀ a b : Json,
      (semverParse a).1.getD 0 0 = (semverParse b).1.getD 0 0 →
      (semverParse a).1.getD 1 0 = (semverParse b).1.getD 1 0 →
      (semverParse a).1.getD 2 0 = (semverParse b).1.getD 2 0 →
      (semverParse a).2 = "" → (semverParse b).2 ≠ "" →
      semverCompareDesc a b = -1) ∧
    (∀ a b : Json,
      (semverParse a).1.getD 0 0 = (semverParse b).1.getD 0 0 →
      (semverParse a).1.getD 1 0 = (semverParse b).1.getD 1 0 →
      (semverParse a).1.getD 2 0 = (semverParse b).1.getD 2 0 →
      (semverParse a).2 ≠ "" → (semverParse b).2 = "" →
      semverCompareDesc a b = 1) ∧
    (∀ a b : Json,
      (semverParse a).1.getD 0 0 = (semverParse b).1.getD 0 0 →
      (semverParse a).1.getD 1 0 = (semverParse b).1.getD 1 0 →
      (semverParse a).1.getD 2 0 = (semverParse b).1.getD 2 0 →
      (semverParse a).2 ≠ "" → (semverParse b).2 ≠ "" →
      semverCompareDesc a b = localeCompare (semverParse a).2 (semverParse b).2) ∧
    (∀ values : List Json, (uniqStrings values).Nodup) ∧
    (∀ versions : Json, ∀ s : String,
      (Sync.normalizeVersions versions (.str s)).Nodup) := by
  refine ⟨rfl, ?_, ?_, ?_, ?_, ?_, ?_, nodup_uniqStrings,
    nodup_normalizeVersions⟩
  · intro a b h0
    simp only [semverCompareDesc]
    rw [if_pos h0]
  · intro a b h0 h1
    simp only [semverCompareDesc]
    rw [if_neg (fun h => h h0), if_pos h1]
  · intro a b h0 h1 h2
    simp only [semverCompareDesc]
    rw [if_neg (fun h => h h0), if_neg (fun h => h h1), if_pos h2]
  · intro a b h0 h1 h2 h3 h4
    simp only [semverCompareDesc]
    rw [if_neg (fun h => h h0), if_neg (fun h => h h1), if_neg (fun h => h h2),
      if_pos ⟨h3, h4⟩]
  · intro a b h0 h1 h2 h3 h4
    simp only [semverCompareDesc]
    rw [if_neg (fun h => h h0), if_neg (fun h => h h1), if_neg (fun h => h h2),
      if_neg (fun hc => h3 hc.1), if_pos ⟨h3, h4⟩]
  · intro a b h0 h1 h2 h3 h4
    simp only [semverCompareDesc]
    rw [if_neg (fun h => h h0), if_neg (fun h => h h1), if_neg (fun h => h h2),
      if_neg (fun hc => h3 hc.1), if_neg (fun hc => h4 hc.2)]

/-- Witness for C5: the comparator hypotheses are satisfiable, e.g. the
minor components of 1.2.0 and 1.10.0 differ at equal major. -/
theorem c5_version_ordering_witness :
    semverCompareDesc (.str "1.2.0") (.str "1.10.0")
      = (semverParse (.str "1.10.0")).1.getD 1 0
        - (semverParse (.str "1.2.0")).1.getD 1 0 :=
  c5_version_ordering.2.2.1 (.str "1.2.0") (.str "1.10.0") (by decide) (by decide)

end Xod

/-! ### Claim C2: overlay precedence through deepMerge and record rebuild -/

namespace Xod

theorem lookupJ_mergeFields_not_mem (k : String) :
    ∀ (ofs out : List (String × Json)), k ∉ ofs.map Prod.fst →
      lookupJ (mergeFields out ofs) k = lookupJ out k := by
  intro ofs
  induction ofs with
  | nil => intro out _; rfl
  | cons p rest ih =>
    obtain ⟨k0, ov⟩ := p
    intro out h
    simp only [List.map_cons, List.mem_cons] at h
    push_neg at h
    simp only [mergeFields]
    rw [ih _ h.2, lookupJ_setKey, if_neg (fun hh => h.1 hh.symm)]

theorem lookupJ_mergeFields (k : String) (ovv : Json) :
    ∀ (ofs out : List (String × Json)), (ofs.map Prod.fst).Nodup →
      lookupJ ofs k = some ovv →
      lookupJ (mergeFields out ofs) k = some
        (match lookupJ out k with
         | some bv =>
           if isPlainObj bv && isPlainObj ovv then deepMerge bv ovv else ovv
         | none => ovv) := by
  intro ofs
  induction ofs with
  | nil => intro out _ h; simp [lookupJ] at h
  | cons p rest ih =>
    obtain ⟨k0, v0⟩ := p
    intro out hnd hl
    simp only [List.map_cons, List.nodup_cons] at hnd
    simp only [mergeFields]
    by_cases h0 : k0 = k
    · subst h0
      have hv : v0 = ovv := by simpa [lookupJ] using hl
      subst hv
      rw [lookupJ_mergeFields_not_mem k0 rest _ hnd.1]
      rw [lookupJ_setKey, if_pos rfl]
    · have hl' : lookupJ rest k = some ovv := by simpa [lookupJ, h0] using hl
      rw [ih _ hnd.2 hl']
      rw [lookupJ_setKey, if_neg h0]
      

/-- C2 counterexample: the overlay's `id` does NOT win — the record
produced by `normalizeLibraryRecord` keeps the discovered id `a/b` even
when the overlay carries `c/d`, although the claim (which names `id` as
an example) requires the overlay's resolved value for every shared
field. -/
theorem c2_counterexample :
    getField (Sync.normalizeLibraryRecord (.obj [("id", .str "a/b")])
        (.obj [("id", .str "c/d")])) "id" = some (.str "a/b") ∧
    getField (.obj [("id", .str "c/d")] : Json) "id" = some (.str "c/d") ∧
    ("a/b" : String) ≠ "c/d" := ⟨rfl, rfl, by decide⟩

/-- C2 (amended): the deep-merge intermediate obeys overlay precedence —
for any key present in the overlay object, the merged value is the
recursive merge when both sides are truthy non-array objects and the
overlay value wholesale otherwise (arrays and scalars replace) — but
`normalizeLibraryRecord` then rebuilds the output record from the merged
data, always taking `id` from the discovered record, and re-deriving the
remaining fields by the normalization rules rather than copying them. -/
theorem c2_overlay_precedence :
    (∀ (bfs ofs : List (String × Json)) (k : String) (ovv : Json),
      (ofs.map Prod.fst).Nodup →
      lookupJ ofs k = some ovv →
      getField (deepMerge (.obj bfs) (.obj ofs)) k = some
        (match lookupJ bfs k with
         | some bv =>
           if isPlainObj bv && isPlainObj ovv then deepMerge bv ovv else ovv
         | none => ovv)) ∧
    (∀ baseLib overlayEntry : Json,
      getField (Sync.normalizeLibraryRecord baseLib overlayEntry) "id"
        = some ((getField baseLib "id").getD .null)) := by
  constructor
  · intro bfs ofs k ovv hnd hl
    exact lookupJ_mergeFields k ovv ofs bfs hnd hl
  · intro b o
    rfl

/-- Witness for C2: the hypotheses are satisfiable — an overlay `versions`
array replaces the discovered one wholesale. -/
theorem c2_overlay_precedence_witness :
    getField (deepMerge (.obj [("versions", .arr [.str "1.0.0"])])
        (.obj [("versions", .arr [.str "2.0.0"])])) "versions"
      = some (.arr [.str "2.0.0"]) :=
  c2_overlay_precedence.1 [("versions", .arr [.str "1.0.0"])]
    [("versions", .arr [.str "2.0.0"])] "versions" (.arr [.str "2.0.0"])
    (by decide) rfl

end Xod

/-! ### Claim C6: mirror skip and re-download behavior -/

namespace Xod

/-- C6 counterexample: a prior state entry that records a (non-canonical)
path with the file present at that path is NOT skipped — the candidate is
re-downloaded (one retry-layer fetch, `skippedExisting` stays 0) because
the skip check compares the recorded path against the canonical one,
contradicting the claim for entries recording any path whose file exists. -/
theorem c6_counterexample :
    lookupJ fixStaleAcc.artifacts (Mirror.candidateKey fixParsed "v1.0.0")
      = some fixStaleEntry ∧
    fixStaleEntry.path ∈ fixStaleAcc.fsFiles ∧
    (Mirror.processCandidate fixEnv fixTemplate fixApiBase fixParsed "v1.0.0"
      fixStaleAcc).fetches = 1 ∧
    (Mirror.processCandidate fixEnv fixTemplate fixApiBase fixParsed "v1.0.0"
      fixStaleAcc).stats.skippedExisting = 0 ∧
    (Mirror.processCandidate fixEnv fixTemplate fixApiBase fixParsed "v1.0.0"
      fixStaleAcc).stats.downloaded = 1 :=
  ⟨rfl, by decide, rfl, rfl, rfl⟩

/-- C6 (amended): for a candidate whose prior state entry records the
candidate's canonical relative path and whose file exists there, the run
makes zero retry-layer fetches and counts `skippedExisting`, leaving
state and disk unchanged; if the entry exists but records a different
path, or the file at the canonical path is missing, the candidate is
fetched exactly once through the retry layer and, on success, hashed,
written, and overwritten in state. -/
theorem c6_mirror_skip_and_redownload :
    ∀ (env : Mirror.MirrorEnv) (tmpl apiBase : String)
      (parsed : Mirror.ParsedId) (version : String) (acc : Mirror.RunAcc)
      (e : Mirror.Artifact),
      lookupJ acc.artifacts (Mirror.candidateKey parsed version) = some e →
      ((e.path = Mirror.relativePathFor parsed version →
        Mirror.relativePathFor parsed version ∈ acc.fsFiles →
        Mirror.processCandidate env tmpl apiBase parsed version acc =
          { acc with stats :=
              { acc.stats with
                totalCandidates := acc.stats.totalCandidates + 1,
                skippedExisting := acc.stats.skippedExisting + 1 } }) ∧
       (∀ (p : String) (j : Json),
        (e.path ≠ Mirror.relativePathFor parsed version ∨
          Mirror.relativePathFor parsed version ∉ acc.fsFiles) →
        Mirror.buildPathFromTemplate tmpl
          [("orgname", parsed.owner), ("libname", parsed.libname),
           ("semver_or_latest", version)] = .ok p →
        env.fetch (apiBase ++ p) = .ok j →
        (Mirror.processCandidate env tmpl apiBase parsed version acc).fetches
            = acc.fetches + 1 ∧
        (Mirror.processCandidate env tmpl apiBase parsed version acc).stats
          = { acc.stats with
              totalCandidates := acc.stats.totalCandidates + 1,
              downloaded := acc.stats.downloaded + 1 } ∧
        lookupJ
            (Mirror.processCandidate env tmpl apiBase parsed version acc).artifacts
            (Mirror.candidateKey parsed version)
          = some
            { id := parsed.id, owner := parsed.owner, libname := parsed.libname,
              version := version, sourceProvider := "xod.io",
              sourceUrl := apiBase ++ p,
              path := Mirror.relativePathFor parsed version,
              sha256 := env.hash (env.stringify j ++ "\n"),
              bytes := (env.stringify j ++ "\n").utf8ByteSize,
              mirroredAt := env.now } ∧
        Mirror.relativePathFor parsed version ∈
          (Mirror.processCandidate env tmpl apiBase parsed version acc).fsFiles)) := by
  intro env tmpl apiBase parsed version acc e hl
  constructor
  · intro hpath hfs
    have hskip : (match lookupJ acc.artifacts (Mirror.candidateKey parsed version) with
        | some existing =>
          existing.path == Mirror.relativePathFor parsed version &&
            acc.fsFiles.contains (Mirror.relativePathFor parsed version)
        | none => false) = true := by
      simp only [hl]
      rw [hpath, beq_self_eq_true, Bool.true_and]
      exact List.elem_eq_true_of_mem hfs
    simp only [Mirror.processCandidate]
    rw [hskip, if_pos rfl]
  · intro p j hmiss hbuild hfetch
    have hskip : (match lookupJ acc.artifacts (Mirror.candidateKey parsed version) with
        | some existing =>
          existing.path == Mirror.relativePathFor parsed version &&
            acc.fsFiles.contains (Mirror.relativePathFor parsed version)
        | none => false) = false := by
      simp only [hl]
      rcases hmiss with hne | hnot
      · rw [show (e.path == Mirror.relativePathFor parsed version) = false from
          beq_eq_false_iff_ne.mpr hne, Bool.false_and]
      · have hcf : acc.fsFiles.contains (Mirror.relativePathFor parsed version)
            = false := by
          rw [← Bool.not_eq_true]
          intro hc
          exact hnot (List.mem_of_elem_eq_true hc)
        rw [hcf, Bool.and_false]
    simp only [Mirror.processCandidate]
    rw [hskip, if_neg Bool.false_ne_true]
    simp only [hbuild, hfetch]
    refine ⟨trivial, trivial, ?_, ?_⟩
    · rw [lookupJ_setKey, if_pos rfl]
    · by_cases hc : acc.fsFiles.contains (Mirror.relativePathFor parsed version) = true
      · rw [if_pos hc]
        exact List.mem_of_elem_eq_true hc
      · rw [if_neg hc]
        simp

/-- Witness for C6: both branches' hypotheses are satisfiable at the
fixture candidate. -/
theorem c6_mirror_skip_and_redownload_witness :
    Mirror.processCandidate fixEnv fixTemplate fixApiBase fixParsed "v1.0.0"
        (fixAcc [("acme/blink@v1.0.0", fixEntry)]
          [Mirror.relativePathFor fixParsed "v1.0.0"]) =
      { fixAcc [("acme/blink@v1.0.0", fixEntry)]
          [Mirror.relativePathFor fixParsed "v1.0.0"] with
        stats := { totalCandidates := 1, downloaded := 0,
                   skippedExisting := 1, failed := 0 } } :=
  (c6_mirror_skip_and_redownload fixEnv fixTemplate fixApiBase fixParsed "v1.0.0"
    (fixAcc [("acme/blink@v1.0.0", fixEntry)]
      [Mirror.relativePathFor fixParsed "v1.0.0"]) fixEntry rfl).1 rfl
    (List.mem_singleton.mpr rfl)

end Xod

/-! ### Claim C9: run statistics add up -/

namespace Xod

theorem processCandidate_preserves_sum (env : Mirror.MirrorEnv)
    (tmpl apiBase : String) (parsed : Mirror.ParsedId) (version : String)
    (acc : Mirror.RunAcc)
    (h : acc.stats.downloaded + acc.stats.skippedExisting + acc.stats.failed
      = acc.stats.totalCandidates) :
    (Mirror.processCandidate env tmpl apiBase parsed version acc).stats.downloaded
      + (Mirror.processCandidate env tmpl apiBase parsed version acc).stats.skippedExisting
      + (Mirror.processCandidate env tmpl apiBase parsed version acc).stats.failed
      = (Mirror.processCandidate env tmpl apiBase parsed version acc).stats.totalCandidates := by
  simp only [Mirror.processCandidate]
  split
  · simp only
    omega
  · split
    · simp only
      omega
    · split
      · simp only
        omega
      · simp only
        omega

theorem foldVersions_preserves_sum (env : Mirror.MirrorEnv)
    (tmpl apiBase : String) (parsed : Mirror.ParsedId) :
    ∀ (vs : List String) (acc : Mirror.RunAcc),
      acc.stats.downloaded + acc.stats.skippedExisting + acc.stats.failed
        = acc.stats.totalCandidates →
      ((vs.foldl (fun a v => Mirror.processCandidate env tmpl apiBase parsed v a)
        acc).stats.downloaded
        + (vs.foldl (fun a v => Mirror.processCandidate env tmpl apiBase parsed v a)
          acc).stats.skippedExisting
        + (vs.foldl (fun a v => Mirror.processCandidate env tmpl apiBase parsed v a)
          acc).stats.failed
        = (vs.foldl (fun a v => Mirror.processCandidate env tmpl apiBase parsed v a)
          acc).stats.totalCandidates) := by
  intro vs
  induction vs with
  | nil => intro acc h; exact h
  | cons v rest ih =>
    intro acc h
    exact ih _ (processCandidate_preserves_sum env tmpl apiBase parsed v acc h)

theorem foldLibs_preserves_sum (env : Mirror.MirrorEnv) (tmpl apiBase : String) :
    ∀ (libs : List Json) (acc : Mirror.RunAcc),
      acc.stats.downloaded + acc.stats.skippedExisting + acc.stats.failed
        = acc.stats.totalCandidates →
      (let step := fun (acc' : Mirror.RunAcc) (lib : Json) =>
        match Mirror.parseId ((getField lib "id").getD .null) with
        | none => acc'
        | some parsed =>
          (Mirror.candidateVersions lib).foldl
            (fun a v => Mirror.processCandidate env tmpl apiBase parsed v a) acc'
      (libs.foldl step acc).stats.downloaded
        + (libs.foldl step acc).stats.skippedExisting
        + (libs.foldl step acc).stats.failed
        = (libs.foldl step acc).stats.totalCandidates) := by
  intro libs
  induction libs with
  | nil => intro acc h; exact h
  | cons lib rest ih =>
    intro acc h
    cases hp : Mirror.parseId ((getField lib "id").getD .null) with
    | none =>
      simp only [List.foldl_cons, hp]
      exact ih acc h
    | some parsed =>
      simp only [List.foldl_cons, hp]
      exact ih _ (foldVersions_preserves_sum env tmpl apiBase parsed _ acc h)

/-- C9: at the end of every mirror run the reported statistics satisfy
`downloaded + skippedExisting + failed = totalCandidates`: each
enumerated `(id, version)` candidate increments `totalCandidates` exactly
once and exactly one of the other three counters. -/
theorem c9_stats_invariant (env : Mirror.MirrorEnv) (tmpl apiBase : String)
    (libraries : List Json) (priorArtifacts : List (String × Mirror.Artifact))
    (fsFiles : List String) :
    (Mirror.runMirror env tmpl apiBase libraries priorArtifacts fsFiles).stats.downloaded
      + (Mirror.runMirror env tmpl apiBase libraries priorArtifacts fsFiles).stats.skippedExisting
      + (Mirror.runMirror env tmpl apiBase libraries priorArtifacts fsFiles).stats.failed
      = (Mirror.runMirror env tmpl apiBase libraries priorArtifacts fsFiles).stats.totalCandidates := by
  simp only [Mirror.runMirror]
  exact foldLibs_preserves_sum env tmpl apiBase _ _ rfl

end Xod

/-! ### Claim C7: mirror state is never pruned (lemma layer) -/

namespace Xod

theorem lookupJ_some_mem {β : Type} :
    ∀ {fs : List (String × β)} {k : String} {v : β},
      lookupJ fs k = some v → (k, v) ∈ fs := by
  intro fs
  induction fs with
  | nil => intro k v h; simp [lookupJ] at h
  | cons p rest ih =>
    obtain ⟨k0, v0⟩ := p
    intro k v h
    rw [lookupJ] at h
    by_cases h0 : k0 = k
    · rw [if_pos h0] at h
      subst h0
      injection h with h
      subst h
      exact List.mem_cons_self _ _
    · rw [if_neg h0] at h
      exact List.mem_cons_of_mem _ (ih h)

theorem wf_setKey {st : List (String × Mirror.Artifact)}
    (hwf : Mirror.WellFormedState st) (k : String) (e : Mirror.Artifact)
    (hid : e.id ≠ "") (hver : e.version ≠ "")
    (hk : k = Mirror.artifactKey e) :
    Mirror.WellFormedState (setKey st k e) := by
  refine ⟨keys_nodup_setKey hwf.1 _ _, ?_⟩
  intro p hp
  rcases mem_setKey _ _ _ _ hp with h | h
  · exact hwf.2 p h
  · subst h
    exact ⟨hid, hver, hk⟩

theorem normalizeId_ne_empty {j : Json} {s : String}
    (h : normalizeId j = some s) : s ≠ "" := by
  match j with
  | .str t =>
    rw [normalizeId] at h
    by_cases hv : isValidIdList
        (dropTrail (fun c => c = '/')
          ((jsTrim t).data.dropWhile (fun c => c = '/'))) = true
    · rw [if_pos hv] at h
      injection h with h
      subst h
      have hne : dropTrail (fun c => c = '/')
          ((jsTrim t).data.dropWhile (fun c => c = '/')) ≠ [] := by
        intro hnil
        rw [hnil] at hv
        exact absurd hv (by decide)
      rw [ne_empty_iff_data]
      show List.map jsCharToLower _ ≠ []
      simpa using hne
    · rw [if_neg hv] at h
      simp at h
  | .null | .bool _ | .num _ | .arr _ | .obj _ => simp [normalizeId] at h

theorem parseId_id_ne_empty {j : Json} {parsed : Mirror.ParsedId}
    (h : Mirror.parseId j = some parsed) : parsed.id ≠ "" := by
  rw [Mirror.parseId] at h
  cases hn : normalizeId j with
  | none => rw [hn] at h; simp at h
  | some n =>
    rw [hn] at h
    injection h with h
    subst h
    exact normalizeId_ne_empty hn

theorem candidateVersions_ne_empty {lib : Json} {v : String}
    (h : v ∈ Mirror.candidateVersions lib) : v ≠ "" :=
  mem_uniqStrings_ne_empty h

theorem rekey_go_skip (key : String) :
    ∀ (l : List Mirror.Artifact) (acc : List (String × Mirror.Artifact)),
      (∀ x ∈ l, Mirror.artifactKey x ≠ key) →
      lookupJ (l.foldl (fun acc item => setKey acc (Mirror.artifactKey item) item) acc) key
        = lookupJ acc key := by
  intro l
  induction l with
  | nil => intro acc _; rfl
  | cons a rest ih =>
    intro acc h
    simp only [List.foldl_cons]
    rw [ih _ (fun x hx => h x (List.mem_cons_of_mem _ hx))]
    rw [lookupJ_setKey, if_neg (h a (List.mem_cons_self _ _))]

theorem rekey_go (e : Mirror.Artifact) :
    ∀ (l : List Mirror.Artifact) (acc : List (String × Mirror.Artifact)),
      e ∈ l → (l.map Mirror.artifactKey).Nodup →
      lookupJ (l.foldl (fun acc item => setKey acc (Mirror.artifactKey item) item) acc)
        (Mirror.artifactKey e) = some e := by
  intro l
  induction l with
  | nil => intro acc he _; simp at he
  | cons a rest ih =>
    intro acc he hnd
    simp only [List.map_cons, List.nodup_cons] at hnd
    simp only [List.foldl_cons]
    rcases List.mem_cons.mp he with h | h
    · subst h
      rw [rekey_go_skip _ rest _
        (fun x hx hk => hnd.1 (by rw [← hk]; exact List.mem_map_of_mem _ hx))]
      rw [lookupJ_setKey, if_pos rfl]
    · exact ih _ h hnd.2

theorem lookupJ_finalState {st : List (String × Mirror.Artifact)}
    (hwf : Mirror.WellFormedState st) {k : String} {e : Mirror.Artifact}
    (hl : lookupJ st k = some e) :
    lookupJ (Mirror.finalStateArtifacts st) k = some e := by
  have hmem : (k, e) ∈ st := lookupJ_some_mem hl
  obtain ⟨hid, hver, hkey⟩ := hwf.2 _ hmem
  have hfilter : (st.map Prod.snd).filter
      (fun x => x.id ≠ "" && x.version ≠ "") = st.map Prod.snd := by
    rw [List.filter_eq_self]
    intro a ha
    rcases List.mem_map.mp ha with ⟨p, hp, hpa⟩
    obtain ⟨h1, h2, _⟩ := hwf.2 p hp
    subst hpa
    simp [h1, h2]
  have hkeys : (st.map Prod.snd).map Mirror.artifactKey = st.map Prod.fst := by
    rw [List.map_map]
    exact List.map_congr_left (fun p hp => ((hwf.2 p hp).2.2).symm)
  have hnd : ((st.map Prod.snd).map Mirror.artifactKey).Nodup := by
    rw [hkeys]; exact hwf.1
  have hperm : List.Perm (Mirror.toArtifactsFromState st) (st.map Prod.snd) := by
    unfold Mirror.toArtifactsFromState sortByCmp
    rw [hfilter]
    exact List.perm_insertionSort _ _
  have hmem' : e ∈ Mirror.toArtifactsFromState st :=
    hperm.symm.subset (List.mem_map_of_mem Prod.snd hmem)
  have hnd' : ((Mirror.toArtifactsFromState st).map Mirror.artifactKey).Nodup :=
    ((hperm.map Mirror.artifactKey).nodup_iff).mpr hnd
  have hkey' : k = Mirror.artifactKey e := hkey
  rw [hkey']
  exact rekey_go e _ [] hmem' hnd'

end Xod

namespace Xod

theorem processCandidate_wf_carried (env : Mirror.MirrorEnv)
    (tmpl apiBase : String) (parsed : Mirror.ParsedId) (version : String)
    (acc : Mirror.RunAcc) (prior : List (String × Mirror.Artifact))
    (hid : parsed.id ≠ "") (hver : version ≠ "")
    (hwf : Mirror.WellFormedState acc.artifacts)
    (hc : Mirror.CarriedFrom env.now prior acc.artifacts) :
    Mirror.WellFormedState
        (Mirror.processCandidate env tmpl apiBase parsed version acc).artifacts ∧
    Mirror.CarriedFrom env.now prior
        (Mirror.processCandidate env tmpl apiBase parsed version acc).artifacts := by
  simp only [Mirror.processCandidate]
  split
  · exact ⟨hwf, hc⟩
  · split
    · exact ⟨hwf, hc⟩
    · split
      · exact ⟨hwf, hc⟩
      · constructor
        · exact wf_setKey hwf _ _ hid hver rfl
        · intro k
          rw [lookupJ_setKey]
          by_cases hk : Mirror.candidateKey parsed version = k
          · rw [if_pos hk]
            exact .inr ⟨_, rfl, rfl⟩
          · rw [if_neg hk]
            exact hc k

theorem foldVersions_wf_carried (env : Mirror.MirrorEnv)
    (tmpl apiBase : String) (parsed : Mirror.ParsedId)
    (prior : List (String × Mirror.Artifact)) (hid : parsed.id ≠ "") :
    ∀ (vs : List String) (acc : Mirror.RunAcc), (∀ v ∈ vs, v ≠ "") →
      Mirror.WellFormedState acc.artifacts →
      Mirror.CarriedFrom env.now prior acc.artifacts →
      Mirror.WellFormedState
          ((vs.foldl (fun a v => Mirror.processCandidate env tmpl apiBase parsed v a)
            acc).artifacts) ∧
      Mirror.CarriedFrom env.now prior
          ((vs.foldl (fun a v => Mirror.processCandidate env tmpl apiBase parsed v a)
            acc).artifacts) := by
  intro vs
  induction vs with
  | nil => intro acc _ hwf hc; exact ⟨hwf, hc⟩
  | cons v rest ih =>
    intro acc hv hwf hc
    have step := processCandidate_wf_carried env tmpl apiBase parsed v acc prior
      hid (hv v (List.mem_cons_self _ _)) hwf hc
    exact ih _ (fun x hx => hv x (List.mem_cons_of_mem _ hx)) step.1 step.2

theorem foldLibs_wf_carried (env : Mirror.MirrorEnv) (tmpl apiBase : String)
    (prior : List (String × Mirror.Artifact)) :
    ∀ (libs : List Json) (acc : Mirror.RunAcc),
      Mirror.WellFormedState acc.artifacts →
      Mirror.CarriedFrom env.now prior acc.artifacts →
      (let step := fun (acc' : Mirror.RunAcc) (lib : Json) =>
        match Mirror.parseId ((getField lib "id").getD .null) with
        | none => acc'
        | some parsed =>
          (Mirror.candidateVersions lib).foldl
            (fun a v => Mirror.processCandidate env tmpl apiBase parsed v a) acc'
      Mirror.WellFormedState ((libs.foldl step acc).artifacts) ∧
      Mirror.CarriedFrom env.now prior ((libs.foldl step acc).artifacts)) := by
  intro libs
  induction libs with
  | nil => intro acc hwf hc; exact ⟨hwf, hc⟩
  | cons lib rest ih =>
    intro acc hwf hc
    cases hp : Mirror.parseId ((getField lib "id").getD .null) with
    | none =>
      simp only [List.foldl_cons, hp]
      exact ih acc hwf hc
    | some parsed =>
      simp only [List.foldl_cons, hp]
      have step := foldVersions_wf_carried env tmpl apiBase parsed prior
        (parseId_id_ne_empty hp) (Mirror.candidateVersions lib) acc
        (fun v hv => candidateVersions_ne_empty hv) hwf hc
      exact ih _ step.1 step.2

theorem runMirror_wf_carried (env : Mirror.MirrorEnv) (tmpl apiBase : String)
    (libraries : List Json) (prior : List (String × Mirror.Artifact))
    (fsFiles : List String) (hwf : Mirror.WellFormedState prior) :
    Mirror.WellFormedState
        ((Mirror.runMirror env tmpl apiBase libraries prior fsFiles).artifacts) ∧
    Mirror.CarriedFrom env.now prior
        ((Mirror.runMirror env tmpl apiBase libraries prior fsFiles).artifacts) := by
  simp only [Mirror.runMirror]
  exact foldLibs_wf_carried env tmpl apiBase prior _ _ hwf (fun k => .inl rfl)

/-- C7 counterexample: the run DOES prune state entries — a prior entry
with an empty id (as a corrupted state file could hold) is dropped by
`toArtifactsFromState`'s filter when the final state is derived, so its
key is absent from the state written at the end of a run that never
revisited it. -/
theorem c7_counterexample :
    lookupJ ([("x", fixBadEntry)] : List (String × Mirror.Artifact)) "x"
      = some fixBadEntry ∧
    (Mirror.runMirror fixEnv fixTemplate fixApiBase [] [("x", fixBadEntry)]
      []).artifacts = [("x", fixBadEntry)] ∧
    Mirror.finalStateArtifacts
      ((Mirror.runMirror fixEnv fixTemplate fixApiBase [] [("x", fixBadEntry)]
        []).artifacts) = [] :=
  ⟨rfl, rfl, rfl⟩

/-- C7 (amended): for prior states as the mirror itself writes them
(unique keys, every entry keyed `id@version` with nonempty id and
version), no run removes a key: every key of the prior artifacts map is
present in the state written at the end of the run, either with its
entry unchanged or overwritten in place by an entry freshly mirrored
this run.  Entries a well-formed state cannot contain (missing id or
version) are the only ones a run drops. -/
theorem c7_state_never_pruned (env : Mirror.MirrorEnv) (tmpl apiBase : String)
    (libraries : List Json) (prior : List (String × Mirror.Artifact))
    (fsFiles : List String) (hwf : Mirror.WellFormedState prior) :
    ∀ (k : String) (e : Mirror.Artifact), lookupJ prior k = some e →
      ∃ e' : Mirror.Artifact,
        lookupJ (Mirror.finalStateArtifacts
          ((Mirror.runMirror env tmpl apiBase libraries prior fsFiles).artifacts)) k
          = some e' ∧
        (e' = e ∨ e'.mirroredAt = env.now) := by
  intro k e hl
  obtain ⟨hwf', hcarry⟩ :=
    runMirror_wf_carried env tmpl apiBase libraries prior fsFiles hwf
  rcases hcarry k with hsame | ⟨e', he', hnow⟩
  · rw [hl] at hsame
    exact ⟨e, lookupJ_finalState hwf' hsame, .inl rfl⟩
  · exact ⟨e', lookupJ_finalState hwf' he', .inr hnow⟩

/-- Witness for C7: the hypotheses are satisfiable — a well-formed
single-entry prior state carried through a run over an empty catalog. -/
theorem c7_state_never_pruned_witness :
    ∃ e' : Mirror.Artifact,
      lookupJ (Mirror.finalStateArtifacts
        ((Mirror.runMirror fixEnv fixTemplate fixApiBase []
          [("acme/blink@v1.0.0", fixEntry)] []).artifacts)) "acme/blink@v1.0.0"
        = some e' ∧
      (e' = fixEntry ∨ e'.mirroredAt = fixEnv.now) :=
  c7_state_never_pruned fixEnv fixTemplate fixApiBase []
    [("acme/blink@v1.0.0", fixEntry)] [] (by decide) "acme/blink@v1.0.0"
    fixEntry rfl

end Xod
